import Mathlib

/-!
Verification of the reference-graph reconstruction engine of cloudwego/goref
against its natural-language specification.

The Go sources under pkg/proc are shallowly embedded: machine integers are
modelled as Nat (values < 2^64) or Int with explicit wraparound where Go's
uint64/int64 arithmetic can overflow; Go slices of type []uint64 that are
aliased between the span index and the heap-bit iterators are modelled by a
store (MaskStore) indexed by slice identity; target memory is a byte oracle
(an external debugger facade in the source); fallible operations return
Except.  Every definition is translated from the corresponding Go function,
keeping the source's names wherever Lean allows it.
-/

namespace Goref

/-- 2^64, the modulus of Go's uint64 arithmetic. -/
def two64 : Nat := 2 ^ 64

/-- 2^63, the boundary between nonnegative and negative int64 values. -/
def two63 : Nat := 2 ^ 63

/-- Reinterpret a 64-bit unsigned value as a Go int64 (two's complement). -/
def toInt64 (n : Nat) : Int := if n < two63 then (n : Int) else (n : Int) - (two64 : Int)

/-- Go conversion to uint64: truncate an integer modulo 2^64. -/
def wrap64 (n : Int) : Nat := (n % (two64 : Int)).toNat

/-- address.go: `type Address uint64`.  Values are < 2^64. -/
abbrev Address := Nat

/-- address.go: `func (a Address) Sub(b Address) int64 { return int64(a - b) }`.
The uint64 subtraction wraps modulo 2^64 and the result is reinterpreted as
int64.  (The source comments `Requires a >= b`.) -/
def Address.sub (a b : Address) : Int := toInt64 (wrap64 ((a : Int) - (b : Int)))

/-- address.go: `func (a Address) Add(x int64) Address { return a + Address(x) }`.
The int64 argument is converted to uint64 and added with wraparound. -/
def Address.add (a : Address) (x : Int) : Address := wrap64 ((a : Int) + x)

/-- Reference implementation of Go's `math/bits.TrailingZeros64` for values
below 2^64: the index of the least set bit, or 64 when the argument is 0.
The recursion inspects one low bit per step, 64 steps at most. -/
def tz64Go : Nat → Nat → Nat
  | _, 0 => 0
  | m, fuel + 1 => if m % 2 = 1 then 0 else 1 + tz64Go (m / 2) fuel

/-- `bits.TrailingZeros64` on a uint64 value. -/
def tz64 (m : Nat) : Nat := tz64Go m 64

/-- Identity of a Go `[]uint64` slice: an index into the mask store. -/
abbrev MaskRef := Nat

/-- The store of all aliased `[]uint64` slices (the ptrMask of each span and
the raw masks built by tests and stack scanning).  Go slices are references:
an iterator and a span share the same underlying array, so the embedding
routes every mask access through this store. -/
abbrev MaskStore := List (List Nat)

/-- Read word `idx` of slice `ref` (Go would panic out of bounds; the
embedded theorems always carry in-bounds hypotheses). -/
def readWord (store : MaskStore) (ref : MaskRef) (idx : Nat) : Nat :=
  (store.getD ref []).getD idx 0

/-- The error values surfaced by the walker: gcmask.go `errOutOfRange`, a
memory read failure from the debugger facade, and the remaining error values
(malformed map structures and the like). -/
inductive GError where
  | outOfRange
  | readFail
  | misc
deriving DecidableEq, Repr

/-- gcmask.go: `type gcMaskBitIterator struct`.  `endA` embeds the source
field `end` (a Lean keyword); `mask` holds the slice identity of the shared
ptrMask array. -/
structure gcMaskBitIterator where
  base : Address
  endA : Address
  maskBase : Address
  mask : MaskRef
  addr : Address
deriving DecidableEq, Repr

/-- gcmask.go: `func newGCBitsIterator(base, end, maskBase Address, ptrMask []uint64)`. -/
def newGCBitsIterator (base endA maskBase : Address) (ptrMask : MaskRef) : gcMaskBitIterator :=
  { base := base, endA := endA, mask := ptrMask, addr := base, maskBase := maskBase }

/-- The scanning loop of gcmask.go `nextPtr` (the `for startOffset < endOffset`
loop).  One fuel unit is spent per iteration; each iteration either returns
or advances `so` to the start of the next 64-word, so `endOffset / 512 + 2`
units always suffice (nextPtrFuel below). -/
def nextPtrLoop (store : MaskStore) (b : gcMaskBitIterator) (endOffset : Nat) :
    Nat → Nat → Option Address
  | 0, _ => none
  | fuel + 1, so =>
    if so < endOffset then
      let ptrIdx := so / 8 / 64
      let i := so / 8 % 64
      let j := tz64 (readWord store b.mask ptrIdx >>> i)
      if j = 64 then
        nextPtrLoop store b endOffset fuel ((ptrIdx + 1) * 64 * 8)
      else
        let a := Address.add b.maskBase ((so : Int) + (j : Int) * 8)
        if b.endA ≤ a then none else some a
    else none

/-- Sufficient fuel for `nextPtrLoop`: each non-returning iteration strictly
increases `so / 512`, which is bounded by `endOffset / 512`. -/
def nextPtrFuel (endOffset : Nat) : Nat := endOffset / 512 + 2

/-- gcmask.go: `func (b *gcMaskBitIterator) nextPtr(ack bool) Address`.
A nil receiver (`none`) returns 0.  Returns the next pointer address at or
after the iterator cursor, together with the updated iterator (`ack` moves
the cursor past the returned address).  0 plays the role of Go's not-found
return value. -/
def nextPtr (store : MaskStore) (b : Option gcMaskBitIterator) (ack : Bool) :
    Address × Option gcMaskBitIterator :=
  match b with
  | none => (0, none)
  | some it =>
    let startOffset := Address.sub it.addr it.maskBase
    let endOffset := Address.sub it.endA it.maskBase
    if endOffset ≤ startOffset ∨ startOffset < 0 then (0, some it)
    else
      match nextPtrLoop store it endOffset.toNat (nextPtrFuel endOffset.toNat) startOffset.toNat with
      | none => (0, some it)
      | some a => (a, some (if ack then { it with addr := Address.add a 8 } else it))

/-- Clear bit `bit` of the uint64 word `w`: Go's `w &= ^(1 << bit)`, with
the uint64 complement written out as xor against the all-ones word (bit is
always below 64 here, being a remainder by 64). -/
def clearBit64 (w : Nat) (bit : Nat) : Nat := w &&& ((two64 - 1) ^^^ (1 <<< bit))

/-- gcmask.go: `func (b *gcMaskBitIterator) resetGCMask(addr Address) error`.
A nil receiver returns nil.  Out of `[base, end)` returns `errOutOfRange`.
Otherwise the source clears `b.mask[offset/8/64+1]` (note the `+1` on the
word index, translated verbatim).  Go panics when that index or a negative
offset escapes the slice; the embedding's `List.set` is then a no-op, and
the theorems below only evaluate in-bounds inputs.  Returns the updated
store (the iterator itself is not modified). -/
def resetGCMask (store : MaskStore) (b : Option gcMaskBitIterator) (addr : Address) :
    Except GError MaskStore :=
  match b with
  | none => .ok store
  | some it =>
    if addr < it.base ∨ it.endA ≤ addr then .error .outOfRange
    else
      let offset := Address.sub addr it.maskBase
      let idx := (Int.tdiv (Int.tdiv offset 8) 64 + 1).toNat
      let bit := (Int.tmod (Int.tdiv offset 8) 64).toNat
      let m := store.getD it.mask []
      .ok (store.set it.mask (m.set idx (clearBit64 (m.getD idx 0) bit)))

/-- heap.go: `type spanInfo struct`.  `ptrMask` is the slice identity of the
span's pointer-mask array in the MaskStore (it is aliased by every heap-bit
iterator created for objects of this span); `visitMask` is never aliased and
is stored by value. -/
structure spanInfo where
  base : Address
  elemSize : Int
  spanSize : Int
  visitMask : List Nat
  ptrMask : MaskRef
  spanclass : Nat
  largeTypeAddr : Nat
deriving DecidableEq, Repr

/-- heap.go: `func (sp *spanInfo) mark(addr Address) bool` — sets the
visitMask bit of the 8-byte word containing `addr - sp.base` and reports
whether it was previously clear.  Negative offsets or out-of-range word
indexes panic in Go; the theorems stay in bounds. -/
def spanInfo.mark (sp : spanInfo) (addr : Address) : Bool × spanInfo :=
  let offset := Address.sub addr sp.base
  let idx := (Int.tdiv (Int.tdiv offset 8) 64).toNat
  let bit := (Int.tmod (Int.tdiv offset 8) 64).toNat
  if sp.visitMask.getD idx 0 &&& (1 <<< bit) ≠ 0 then (false, sp)
  else (true, { sp with visitMask := sp.visitMask.set idx (sp.visitMask.getD idx 0 ||| (1 <<< bit)) })

/-- heap.go: `func (sp *spanInfo) elemEnd(base Address) Address` — the end of
the object slot at `base`, clipped to the span end. -/
def spanInfo.elemEnd (sp : spanInfo) (base : Address) : Address :=
  let e := Address.add base sp.elemSize
  let spanEnd := Address.add sp.base sp.spanSize
  if spanEnd < e then spanEnd else e

/-- runtime.go: `func (sc spanClass) noscan() bool { return sc&1 != 0 }`. -/
def spanClassNoscan (sc : Nat) : Bool := sc % 2 = 1

/-- runtime.go: `func (sc spanClass) sizeclass() int8 { return int8(sc >> 1) }`. -/
def spanClassSizeclass (sc : Nat) : Nat := sc / 2 % 128

/-- heap.go: `type segment struct { start, end Address; visitMask []uint64 }`. -/
structure segment where
  start : Address
  endA : Address
  visitMask : List Nat
deriving DecidableEq, Repr

/-- heap.go: `func (s *segment) mark(addr Address) (success bool)` — inside
`[start, end)` behaves like spanInfo.mark, otherwise returns false. -/
def segment.mark (s : segment) (addr : Address) : Bool × segment :=
  if s.start ≤ addr ∧ addr < s.endA then
    let offset := Address.sub addr s.start
    let idx := (Int.tdiv (Int.tdiv offset 8) 64).toNat
    let bit := (Int.tmod (Int.tdiv offset 8) 64).toNat
    if s.visitMask.getD idx 0 &&& (1 <<< bit) ≠ 0 then (false, s)
    else (true, { s with visitMask := s.visitMask.set idx (s.visitMask.getD idx 0 ||| (1 <<< bit)) })
  else (false, s)

/-- heap.go: `func (ss segments) mark(addr Address) (success bool, seg *segment)`.
The first segment that marks successfully is reported; the Go fast path for a
single-element list has the same semantics as the loop.  Returns the success
flag, the end address of the marking segment (all the caller reads from the
returned pointer) and the updated list. -/
def segmentsMark (ss : List segment) (addr : Address) : Bool × Address × List segment :=
  match ss with
  | [] => (false, 0, [])
  | s :: rest =>
    match segment.mark s addr with
    | (true, s1) => (true, s1.endA, s1 :: rest)
    | (false, s1) =>
      match segmentsMark rest addr with
      | (suc, e, rest1) => (suc, e, s1 :: rest1)

/-- Target memory as a byte oracle: `none` models an address the debugger
facade cannot read (ReadMemory error).  The facade itself is an external
collaborator of the analyzed code. -/
def Mem := Nat → Option Nat

/-- Read `n` consecutive bytes, failing if any byte is unreadable (Go's
ReadMemory fills the whole buffer or errors). -/
def readBytes (mem : Mem) (addr : Nat) : Nat → Option (List Nat)
  | 0 => some []
  | n + 1 =>
    match mem addr, readBytes mem (addr + 1) n with
    | some b, some rest => some (b :: rest)
    | _, _ => none

/-- Little-endian combination of a byte list (binary.LittleEndian.UintNN). -/
def leCombine : List Nat → Nat
  | [] => 0
  | b :: rest => b % 256 + 256 * leCombine rest

/-- variables.go: `func readUintRaw(mem, addr, size) (uint64, error)` —
an unsigned little-endian load of `size` bytes. -/
def readUintRaw (mem : Mem) (addr : Nat) (size : Nat) : Except GError Nat :=
  match readBytes mem addr size with
  | none => .error .readFail
  | some bs => .ok (leCombine bs)

/-- Sign-extend an unsigned `size`-byte value (Go's intNN conversions). -/
def signExtend (size : Nat) (val : Nat) : Int :=
  if val < 2 ^ (8 * size - 1) then (val : Int) else (val : Int) - (2 ^ (8 * size) : Nat)

/-- variables.go: `func readIntRaw(mem, addr, size) (int64, error)`. -/
def readIntRaw (mem : Mem) (addr : Nat) (size : Nat) : Except GError Int :=
  match readBytes mem addr size with
  | none => .error .readFail
  | some bs => .ok (signExtend size (leCombine bs))

/-- unsafe.go: `func uint64s2str(us []uint64) string` — reinterprets the
uint64 slice as its little-endian byte representation (8 bytes per word on
the 64-bit targets the tool supports).  Modelled as the byte list. -/
def uint64s2str (us : List Nat) : List Nat :=
  us.flatMap (fun u => (List.range 8).map (fun i => u >>> (8 * i) % 256))

/-- protobuf.go: `type profileNode struct { count, size int64 }`. -/
structure profileNode where
  count : Int
  size : Int
deriving DecidableEq, Repr

/-- protobuf.go: the parts of `profileBuilder` the walker observes: the
string table and the deduplicating edge accumulator `nodes` keyed by the
serialized location chain.  The Go map is modelled as an association list
with distinct keys (insertion appends; updates edit in place). -/
structure profileBuilder where
  strings : List String
  nodes : List (List Nat × profileNode)
deriving DecidableEq, Repr

/-- protobuf.go `newProfileBuilder`: the string table starts with the empty
string, and the two `pbValueType` calls intern the four sample-type names. -/
def newProfileBuilder : profileBuilder :=
  { strings := ["", "inuse_objects", "count", "inuse_space", "bytes"], nodes := [] }

/-- protobuf.go: `func (b *profileBuilder) stringIndex(s string) int64` —
returns the index of `s` in the string table, appending it if absent. -/
def stringIndex (pb : profileBuilder) (s : String) : Nat × profileBuilder :=
  match pb.strings.findIdx? (· = s) with
  | some i => (i, pb)
  | none => (pb.strings.length, { pb with strings := pb.strings ++ [s] })

/-- Update the node for key `k` in the accumulator, as Go's
`b.nodes[k]` lookup plus in-place mutation: absent keys are inserted with a
zero node before the deltas are added. -/
def nodesAdd (nodes : List (List Nat × profileNode)) (k : List Nat) (count bytes : Int) :
    List (List Nat × profileNode) :=
  match nodes with
  | [] => [(k, { count := count, size := bytes })]
  | (k1, n1) :: rest =>
    if k1 = k then (k1, { count := n1.count + count, size := n1.size + bytes }) :: rest
    else (k1, n1) :: nodesAdd rest k count bytes

/-- protobuf.go: `func (b *profileBuilder) addReference(indexes []uint64, count, bytes int64)`. -/
def addReference (pb : profileBuilder) (indexes : List Nat) (count bytes : Int) : profileBuilder :=
  { pb with nodes := nodesAdd pb.nodes (uint64s2str indexes) count bytes }

/-- protobuf.go `flushReference`: one Sample message is encoded per entry of
the accumulator; this model keeps the (values, chain-key) pairs it emits. -/
def flushReference (pb : profileBuilder) : List (Int × Int × List Nat) :=
  pb.nodes.map (fun kn => (kn.2.count, kn.2.size, kn.1))

/-- protobuf.go: `type pprofIndex struct { idx uint64; prev *pprofIndex; depth int }` —
an immutable cons cell of the current reference chain. -/
inductive pprofIndex where
  | node (idx : Nat) (prev : Option pprofIndex) (depth : Nat)
deriving Repr

/-- The depth field of a chain node. -/
def pprofIndex.depthOf : pprofIndex → Nat
  | .node _ _ d => d

/-- protobuf.go: `func (i *pprofIndex) pushHead(pb *profileBuilder, name string) *pprofIndex`.
An empty name pushes nothing; otherwise the name is interned and a new head
is consed with depth 0 at the root and parent depth + 1 below. -/
def pushHead (i : Option pprofIndex) (pb : profileBuilder) (name : String) :
    Option pprofIndex × profileBuilder :=
  if name = "" then (i, pb)
  else
    let (idx, pb1) := stringIndex pb name
    match i with
    | none => (some (.node idx none 0), pb1)
    | some p => (some (.node idx (some p) (pprofIndex.depthOf p + 1)), pb1)

mutual
/-- protobuf.go: `func (i *pprofIndex) indexes() (res []uint64)` — the chain
serialized head-first (the walk over one node). -/
def pprofIndexesNode : pprofIndex → List Nat
  | .node i prev _ => i :: pprofIndexes prev

/-- The nil-tolerant entry of `indexes()` (res is empty at a nil chain). -/
def pprofIndexes : Option pprofIndex → List Nat
  | none => []
  | some p => pprofIndexesNode p
end

/-- The DWARF CommonType data the walker reads: type name (`String()`),
byte size (`Size()`) and alignment (`Align()`).  godwarf.Type is a type of
the external delve dependency; only these observations reach the embedded
code. -/
structure GoCommon where
  name : String
  size : Int
  align : Int
deriving DecidableEq, Repr

mutual
/-- The godwarf type families `findRef` dispatches on.  For ChanType and
MapType the source asserts `typ.Type.(*godwarf.PtrType).Type`; DWARF
guarantees that shape, so the embedding stores that pointee (the runtime
hchan/hmap struct) directly.  StringType, SliceType and InterfaceType carry
the fields of their underlying struct.  TypedefType and QualType (both
skipped by resolveTypedef) are merged into one constructor. -/
inductive GoType where
  | void (c : GoCommon)
  | base (c : GoCommon)
  | ptr (c : GoCommon) (elem : GoType)
  | chanT (c : GoCommon) (hchan : GoType) (elem : GoType)
  | mapT (c : GoCommon) (hmap : GoType) (key : GoType) (elem : GoType)
  | stringT (c : GoCommon) (fields : List StructField)
  | sliceT (c : GoCommon) (fields : List StructField) (elem : GoType)
  | ifaceT (c : GoCommon) (fields : List StructField)
  | structT (c : GoCommon) (sname : String) (fields : List StructField)
  | arrayT (c : GoCommon) (elem : GoType) (count : Int)
  | funcT (c : GoCommon)
  | finalizePtrT
  | typedefT (c : GoCommon) (t : GoType)

/-- godwarf.StructField: name, byte offset and type. -/
inductive StructField where
  | mk (name : String) (off : Int) (typ : GoType)
end

/-- Field name accessor. -/
def StructField.name : StructField → String
  | .mk n _ _ => n

/-- Field byte-offset accessor. -/
def StructField.off : StructField → Int
  | .mk _ o _ => o

/-- Field type accessor. -/
def StructField.typ : StructField → GoType
  | .mk _ _ t => t

/-- The CommonType of a godwarf type (finalizePtrT embeds a nil
godwarf.Type in the source; its common data is never read). -/
def GoType.common : GoType → GoCommon
  | .void c => c
  | .base c => c
  | .ptr c _ => c
  | .chanT c _ _ => c
  | .mapT c _ _ _ => c
  | .stringT c _ => c
  | .sliceT c _ _ => c
  | .ifaceT c _ => c
  | .structT c _ _ => c
  | .arrayT c _ _ => c
  | .funcT c => c
  | .finalizePtrT => { name := "", size := 0, align := 0 }
  | .typedefT c _ => c

/-- godwarf `typ.Size()`. -/
def GoType.size (t : GoType) : Int := t.common.size

/-- godwarf `typ.String()` (the DWARF type name). -/
def GoType.str (t : GoType) : String := t.common.name

/-- godwarf `typ.Align()`. -/
def GoType.alignOf (t : GoType) : Int := t.common.align

/-- variables.go: `func resolveTypedef(typ godwarf.Type) godwarf.Type` —
strips TypedefType and QualType wrappers. -/
def resolveTypedef : GoType → GoType
  | .typedefT _ t => resolveTypedef t
  | t => t

/-- variables.go: `func alignAddr(addr, align int64) int64` — rounds `addr`
up to a multiple of `align` (a power of 2; the bit trick of the source
equals rounding division for the nonnegative sizes DWARF produces). -/
def alignAddr (addr align : Int) : Int :=
  if 0 < align then ((addr + align - 1) / align) * align else addr

/-- variables.go: `func fakeArrayType(n uint64, fieldType godwarf.Type)` —
a synthetic `[n]fieldType` DWARF array. -/
def fakeArrayType (n : Nat) (fieldType : GoType) : GoType :=
  let stride := alignAddr fieldType.size fieldType.alignOf
  .arrayT { name := "[" ++ toString n ++ "]" ++ fieldType.str,
            size := (n : Int) * stride, align := 0 } fieldType (n : Int)

/-- The `[n]byte` element type used by findRef's string case
(`godwarf.UintType` with ByteSize 1, name `byte`). -/
def byteType : GoType := .base { name := "byte", size := 1, align := 1 }

mutual
/-- reference.go: `func hasPtrType(t godwarf.Type) bool` — whether the type
transitively contains a pointer-like family.  The source resolves typedefs
before each recursive call (`hasPtrType(resolveTypedef(...))`) and is only
ever entered on resolved types; the embedding equivalently strips a typedef
wrapper on entry. -/
def hasPtrType : GoType → Bool
  | .ptr _ _ => true
  | .chanT _ _ _ => true
  | .mapT _ _ _ _ => true
  | .stringT _ _ => true
  | .sliceT _ _ _ => true
  | .ifaceT _ _ => true
  | .funcT _ => true
  | .structT _ _ fields => hasPtrTypeFields fields
  | .arrayT _ elem _ => hasPtrType elem
  | .typedefT _ t => hasPtrType t
  | _ => false

/-- The struct-field loop of hasPtrType. -/
def hasPtrTypeFields : List StructField → Bool
  | [] => false
  | .mk _ _ t :: rest => hasPtrType t || hasPtrTypeFields rest
end

/-- kindDirectIface flag of runtime type kinds (variables.go). -/
def kindDirectIface : Nat := 32

/-- The pointer size of the supported 64-bit targets (bi.Arch.PtrSize()). -/
def ptrSizeConst : Nat := 8

/-- runtime.go init: the byte offsets of Size_, PtrBytes and GCData inside
the runtime's abi.Type on the 64-bit targets the tool supports. -/
def sizeOffset : Int := 0

/-- Offset of abi.Type.PtrBytes. -/
def ptrBytesOffset : Int := 8

/-- Offset of abi.Type.GCData. -/
def gcDataOffset : Int := 32

/-- The read-only external world of the walker: the debugger facade's
memory, the producer-version flag picked in toMapIterator, and the DWARF
oracles (delve's RuntimeTypeToDIE, PCToFunc, and the closure struct type the
source synthesizes from the owning function's DWARF sub-tree in
closureStructType). -/
structure Env where
  mem : Mem
  producerGe112 : Bool
  runtimeTypeToDIE : Nat → Nat → Except GError (GoType × Nat)
  pcToFunc : Nat → Option Nat
  closureType : Nat → Option GoType

/-- reference.go: `maxRefDepth` defaults to 256. -/
def defaultMaxRefDepth : Nat := 256

/-- The process-wide walker configuration (spec 9: global mutable state with
lifecycle = process). -/
structure RefConfig where
  maxRefDepth : Nat
deriving DecidableEq, Repr

/-- The configuration before any CLI flag is applied. -/
def defaultRefConfig : RefConfig := { maxRefDepth := defaultMaxRefDepth }

/-- Modelled from the spec: `SetMaxRefDepth`, which commands.go (execute)
calls for a positive --max-depth flag, is absent from the sources under
src/ — pkg/proc only declares the constant default while cmd/grf calls
myproc.SetMaxRefDepth.  Per the spec it overwrites the process-wide maximum
reference depth that findRef reads. -/
def SetMaxRefDepth (cfg : RefConfig) (depth : Nat) : RefConfig :=
  { cfg with maxRefDepth := depth }

/-- reference.go: `type finalMarkParam struct { idx *pprofIndex; hb *gcMaskBitIterator }`. -/
structure finalMarkParam where
  idx : Option pprofIndex
  hb : Option gcMaskBitIterator
deriving Repr

/-- heap.go `HeapScope` merged with the walker state of `ObjRefScope`
(which embeds it together with the profile builder): the runtime constants,
the segment roots, the arena index (span identities, i.e. indices into
`spans`, play the role of the Go `*spanInfo` pointers), the mask store, the
final-mark queue and the profile builder.  The current goroutine stack `g`
may be nil. -/
structure HeapScope where
  pageSize : Nat
  heapArenaBytes : Nat
  pagesPerArena : Nat
  arenaL1Bits : Nat
  arenaL2Bits : Nat
  arenaBaseOffset : Int
  enableAllocHeader : Bool
  minSizeForMallocHeader : Int
  data : List segment
  bss : List segment
  g : Option segment
  arenaInfo : List (Option (List (Option (List (Option Nat)))))
  spans : List spanInfo
  masks : MaskStore
  finalMarks : List finalMarkParam
  pb : profileBuilder

/-- A placeholder spanInfo for the List.getD of span dereferences (the
theorems only dereference valid span identities, as Go only dereferences
valid pointers). -/
instance : Inhabited spanInfo :=
  ⟨{ base := 0, elemSize := 0, spanSize := 0, visitMask := [], ptrMask := 0,
     spanclass := 0, largeTypeAddr := 0 }⟩

/-- heap.go: `func (s *HeapScope) arenaIndex(p uintptr) uint` — the uintptr
addition wraps modulo 2^64; heapArenaBytes is a positive runtime constant. -/
def arenaIndex (s : HeapScope) (p : Nat) : Nat :=
  wrap64 ((p : Int) + s.arenaBaseOffset) / s.heapArenaBytes

/-- heap.go: `func (s *HeapScope) indexes(addr Address) (l1, l2, idx uint)`. -/
def indexes (s : HeapScope) (addr : Address) : Nat × Nat × Nat :=
  let idx := addr / s.pageSize % s.pagesPerArena
  if s.arenaL1Bits = 0 then (0, arenaIndex s addr, idx)
  else
    let ri := arenaIndex s addr
    (ri >>> s.arenaL2Bits, ri &&& ((1 <<< s.arenaL2Bits) - 1), idx)

/-- heap.go: `func (s *HeapScope) spanOf(addr Address) *spanInfo` — the
bounds-checked three-level lookup; `none` is the nil result. -/
def spanOf (s : HeapScope) (addr : Address) : Option Nat :=
  match indexes s addr with
  | (l1, l2, idx) =>
    match s.arenaInfo.get? l1 with
    | some (some l1Info) =>
      match l1Info.get? l2 with
      | some (some l2Info) =>
        match l2Info.get? idx with
        | some v => v
        | none => none
      | _ => none
    | _ => none

/-- heap.go: `func (s *HeapScope) findSpanAndBase(addr Address) (sp *spanInfo, base Address)` —
the span identity and the base of the object slot containing `addr`. -/
def findSpanAndBase (s : HeapScope) (addr : Address) : Option (Nat × Address) :=
  match spanOf s addr with
  | none => none
  | some i =>
    let sp := s.spans.getD i default
    let offset := Address.sub addr sp.base
    some (i, Address.add sp.base (Int.tdiv offset sp.elemSize * sp.elemSize))

/-- heap.go: `func (s *HeapScope) heapBitsInSpan(elemSize int64) bool`. -/
def heapBitsInSpan (s : HeapScope) (elemSize : Int) : Bool :=
  elemSize ≤ s.minSizeForMallocHeader

/-- The body of the copy loop of heap.go `readType`: expands the type's
packed GC-data bitmap into the span's ptrMask word by word (64 pointer words
per iteration), replicating the pattern every `typeSize` bytes and masking
the tail beyond `end`.  All uint64 shifts wrap modulo 2^64 as in Go.  One
fuel unit is spent per iteration; Go's loop can diverge on a malformed type
descriptor (typeSize < ptrBytes), and the fuel supplied by readType covers
every well-formed run. -/
def readTypeLoop (mem : Mem) (spBase : Address) (maskRef : MaskRef) (maskLen : Nat)
    (gcDataAddr : Address) (typeSize ptrBytes : Int) (endA : Address) :
    Nat → Address → Address → MaskStore → MaskStore
  | 0, _, _, store => store
  | fuel + 1, elem0, addr0, store =>
    let elem := if Address.add elem0 ptrBytes ≤ addr0 then Address.add elem0 typeSize else elem0
    let addr := if Address.add elem0 ptrBytes ≤ addr0 then Address.add elem0 typeSize else addr0
    if endA ≤ addr then store
    else
      match readUintRaw mem (Address.add gcDataAddr (Int.tdiv (Address.sub addr elem) 64)) 8 with
      | .error _ => store
      | .ok mask0 =>
        let mask1 :=
          if endA < Address.add addr (8 * 64) then
            let hbits := (Int.tdiv (Address.sub endA addr) 8).toNat
            let pow := (1 <<< (64 - hbits)) % two64
            mask0 &&& ((two64 - 1) ^^^ ((((pow + two64) - 1) % two64 <<< hbits) % two64))
          else mask0
        let offset := Address.sub addr spBase
        let idx := (Int.tdiv (Int.tdiv offset 8) 64).toNat
        let bit := (Int.tmod (Int.tdiv offset 8) 64).toNat
        let m := store.getD maskRef []
        let m1 := m.set idx (m.getD idx 0 ||| ((mask1 <<< bit) % two64))
        let m2 :=
          if idx + 1 < maskLen then m1.set (idx + 1) (m1.getD (idx + 1) 0 ||| (mask1 >>> (64 - bit)))
          else m1
        readTypeLoop mem spBase maskRef maskLen gcDataAddr typeSize ptrBytes endA
          fuel elem (Address.add addr (8 * 64)) (store.set maskRef m2)

/-- heap.go: `func (s *HeapScope) readType(sp *spanInfo, typeAddr, addr, end Address)` —
reads Size_, PtrBytes and GCData from the per-object type descriptor and
expands the GC bitmap into the span's ptrMask (the cacheMemory layers are
semantically transparent for the deterministic byte oracle). -/
def readType (env : Env) (s : HeapScope) (spIdx : Nat) (typeAddr addr endA : Address) : HeapScope :=
  let sp := s.spans.getD spIdx default
  match readUintRaw env.mem (Address.add typeAddr sizeOffset) 8 with
  | .error _ => s
  | .ok typeSize0 =>
    if typeSize0 = 0 then s
    else
      match readUintRaw env.mem (Address.add typeAddr ptrBytesOffset) 8 with
      | .error _ => s
      | .ok ptrBytes0 =>
        if ptrBytes0 = 0 then s
        else
          match readUintRaw env.mem (Address.add typeAddr gcDataOffset) 8 with
          | .error _ => s
          | .ok gcDataAddr =>
            let maskLen := (s.masks.getD sp.ptrMask []).length
            let fuel := endA / 8 + 2
            { s with masks := (readTypeLoop env.mem sp.base sp.ptrMask maskLen gcDataAddr
                (toInt64 typeSize0) (toInt64 ptrBytes0) endA fuel addr addr s.masks) }

/-- heap.go: `func (s *HeapScope) copyGCMask(sp *spanInfo, base Address) Address` —
under allocation-header runtimes, populates the span's ptrMask for a
first-touched object from its type descriptor (in the 8 header bytes for
normal size classes, from the span's largeTypeAddr for class 0) and returns
the base of the object's data. -/
def copyGCMask (env : Env) (s : HeapScope) (spIdx : Nat) (base : Address) : HeapScope × Address :=
  let sp := s.spans.getD spIdx default
  if !s.enableAllocHeader then (s, base)
  else if spanClassNoscan sp.spanclass then (s, base)
  else if heapBitsInSpan s sp.elemSize then (s, base)
  else if spanClassSizeclass sp.spanclass ≠ 0 then
    let typeAddr := (readUintRaw env.mem base 8).toOption.getD 0
    (readType env s spIdx typeAddr (Address.add base 8) (spanInfo.elemEnd sp base), Address.add base 8)
  else
    (readType env s spIdx sp.largeTypeAddr base (spanInfo.elemEnd sp base), base)

/-- variables.go: `type ReferenceVariable struct` — address, profile name,
resolved DWARF type, optional heap-bits iterator and the size/count
accumulators.  The memory reader field is dropped: all reads go through the
single deterministic byte oracle, for which the source's cacheMemory /
DereferenceMemory layers are semantically transparent. -/
structure ReferenceVariable where
  Addr : Address
  Name : String
  RealType : GoType
  hb : Option gcMaskBitIterator
  size : Int
  count : Int

/-- variables.go: `func newReferenceVariable(addr, name, typ, mem, hb)` —
the pooled allocation resets size and count to zero. -/
def newReferenceVariable (addr : Address) (name : String) (typ : GoType)
    (hb : Option gcMaskBitIterator) : ReferenceVariable :=
  { Addr := addr, Name := name, RealType := typ, hb := hb, size := 0, count := 0 }

/-- variables.go: `func newReferenceVariableWithSizeAndCount`. -/
def newReferenceVariableWithSizeAndCount (addr : Address) (name : String) (typ : GoType)
    (hb : Option gcMaskBitIterator) (size count : Int) : ReferenceVariable :=
  { Addr := addr, Name := name, RealType := typ, hb := hb, size := size, count := count }

/-- variables.go: `func (v *ReferenceVariable) readPointer(addr Address) (uint64, error)` —
clears the ptrMask bit at `addr` through the iterator (errOutOfRange when the
address escapes the window) and reads 8 bytes.  Returns the value and the
updated mask store. -/
def readPointer (env : Env) (masks : MaskStore) (v : ReferenceVariable) (addr : Address) :
    Except GError (Nat × MaskStore) :=
  match resetGCMask masks v.hb addr with
  | .error e => .error e
  | .ok masks1 =>
    match readUintRaw env.mem addr 8 with
    | .error e => .error e
    | .ok n => .ok (n, masks1)

/-- variables.go: `func (v *ReferenceVariable) readUint64(addr Address) (uint64, error)` —
range-checked against the iterator window when one is present, no mask
mutation. -/
def readUint64 (env : Env) (v : ReferenceVariable) (addr : Address) : Except GError Nat :=
  match v.hb with
  | some hb => if addr < hb.base ∨ hb.endA ≤ addr then .error .outOfRange else readUintRaw env.mem addr 8
  | none => readUintRaw env.mem addr 8

/-- variables.go: `func (v *ReferenceVariable) asInt() (int64, error)`. -/
def asInt (env : Env) (v : ReferenceVariable) : Except GError Int :=
  readIntRaw env.mem v.Addr 8

/-- variables.go: `func (v *ReferenceVariable) asUint() (uint64, error)`. -/
def asUint (env : Env) (v : ReferenceVariable) : Except GError Nat :=
  readUintRaw env.mem v.Addr 8

/-- variables.go: `func (v *ReferenceVariable) toField(field *godwarf.StructField)` —
offsets the address, names the child `fieldName. (TypeName)`, resolves the
field type and shares the heap-bits iterator. -/
def toField (v : ReferenceVariable) (f : StructField) : ReferenceVariable :=
  newReferenceVariable (Address.add v.Addr f.off) (f.name ++ ". (" ++ f.typ.str ++ ")")
    (resolveTypedef f.typ) v.hb

/-- variables.go: `func (v *ReferenceVariable) arrayAccess(idx int64)` —
nil unless the variable is an array; elements at index 10 and beyond
collapse to the name `[10+]`. -/
def arrayAccess (v : ReferenceVariable) (idx : Int) : Option ReferenceVariable :=
  match v.RealType with
  | .arrayT _ elem _ =>
    let name := if idx < 10 then "[" ++ toString idx ++ "]" else "[10+]"
    some (newReferenceVariable (Address.add v.Addr (idx * elem.size))
      (name ++ ". (" ++ elem.str ++ ")") (resolveTypedef elem) v.hb)
  | _ => none

/-- variables.go: `func (v *ReferenceVariable) arrayLen() uint64`. -/
def arrayLen (v : ReferenceVariable) : Nat :=
  match v.RealType with
  | .arrayT _ _ count => count.toNat
  | _ => 0

/-- variables.go: `func (v *ReferenceVariable) clone()`. -/
def clone (v : ReferenceVariable) : ReferenceVariable :=
  newReferenceVariable v.Addr v.Name v.RealType v.hb

/-- variables.go: `func pointerTo(typ godwarf.Type, arch *proc.Arch)`. -/
def pointerTo (typ : GoType) : GoType :=
  .ptr { name := "*" ++ typ.str, size := (ptrSizeConst : Int), align := 0 } typ

/-- reference.go: `func (s *ObjRefScope) findObject(addr Address, typ godwarf.Type, mem ...)`.
Not-in-span addresses are visit-marked in the bss, data or stack segments
(in that order) and yielded as root-typed variables without heap bits,
unless the typed extent overruns the segment (an unsafe conversion).
In-span addresses are visit-marked at their object base; the first touch
copies the GC mask (allocation-header runtimes), builds the heap-bits
iterator over the span's ptrMask window and yields the object with the
span's element size.  (The `hb.nextPtr(false) != 0` probe of the source only
elects memory caching, which the byte-oracle model makes transparent.) -/
def findObject (env : Env) (s : HeapScope) (addr : Address) (typ : GoType) :
    HeapScope × Option ReferenceVariable :=
  match findSpanAndBase s addr with
  | none =>
    match segmentsMark s.bss addr with
    | (true, endA, bss1) =>
      let s1 := { s with bss := bss1 }
      if endA < Address.add addr typ.size then (s1, none)
      else (s1, some (newReferenceVariable addr "" (resolveTypedef typ) none))
    | (false, _, bss1) =>
      match segmentsMark s.data addr with
      | (true, endA, data1) =>
        let s1 := { s with bss := bss1, data := data1 }
        if endA < Address.add addr typ.size then (s1, none)
        else (s1, some (newReferenceVariable addr "" (resolveTypedef typ) none))
      | (false, _, data1) =>
        match s.g with
        | some g =>
          match segment.mark g addr with
          | (true, g1) =>
            let s1 := { s with bss := bss1, data := data1, g := some g1 }
            if g1.endA < Address.add addr typ.size then (s1, none)
            else (s1, some (newReferenceVariable addr "" (resolveTypedef typ) none))
          | (false, g1) => ({ s with bss := bss1, data := data1, g := some g1 }, none)
        | none => ({ s with bss := bss1, data := data1 }, none)
  | some (i, base) =>
    let sp := s.spans.getD i default
    match spanInfo.mark sp base with
    | (false, _) => (s, none)
    | (true, sp1) =>
      let s1 := { s with spans := s.spans.set i sp1 }
      match copyGCMask env s1 i base with
      | (s2, realBase) =>
        let sp2 := s2.spans.getD i default
        let hb := newGCBitsIterator realBase (spanInfo.elemEnd sp2 base) sp2.base sp2.ptrMask
        (s2, some (newReferenceVariableWithSizeAndCount addr "" (resolveTypedef typ)
          (some hb) sp2.elemSize 1))

/-- variables.go: `func (v *ReferenceVariable) dereference(s *ObjRefScope)` —
for pointer types, reads the pointer (consuming the ptrMask bit) and calls
findObject on the target; nil otherwise or on a read error. -/
def dereference (env : Env) (s : HeapScope) (v : ReferenceVariable) :
    HeapScope × Option ReferenceVariable :=
  match v.RealType with
  | .ptr _ elem =>
    match readPointer env s.masks v v.Addr with
    | .error _ => (s, none)
    | .ok (ptr, masks1) => findObject env { s with masks := masks1 } ptr (resolveTypedef elem)
  | _ => (s, none)

/-- Sufficient fuel for one heap-bits drain loop: each nextPtr(true) yield
moves the cursor forward by at least 8 bytes inside the window. -/
def drainFuel (hb : gcMaskBitIterator) : Nat := (Address.sub hb.endA hb.base).toNat / 8 + 2

mutual
/-- reference.go: `func (s *HeapScope) markObject(addr Address, mem ...) (size, count int64)` —
the untyped flood fill of the final-mark pass: marks the object, copies its
GC mask, then follows every remaining pointer in its heap-bits window,
accumulating the sizes and counts of everything newly reachable.  The outer
fuel bounds the pointer-chain depth (Go terminates because every visit mark
is permanent; the theorems pick sufficient fuel). -/
def markObject (env : Env) : Nat → HeapScope → Address → HeapScope × Int × Int
  | 0, s, _ => (s, 0, 0)
  | fuel + 1, s, addr =>
    match findSpanAndBase s addr with
    | none => (s, 0, 0)
    | some (i, base) =>
      let sp := s.spans.getD i default
      match spanInfo.mark sp base with
      | (false, _) => (s, 0, 0)
      | (true, sp1) =>
        let s1 := { s with spans := s.spans.set i sp1 }
        match copyGCMask env s1 i base with
        | (s2, realBase) =>
          let sp2 := s2.spans.getD i default
          let hb := newGCBitsIterator realBase (spanInfo.elemEnd sp2 base) sp2.base sp2.ptrMask
          match markObjectLoop env fuel (drainFuel hb) s2 hb with
          | (s3, size, count) => (s3, sp2.elemSize + size, 1 + count)

/-- The `for { ptr := hb.nextPtr(true); ... }` loop shared by markObject and
finalMark: drain the iterator, read each pointer (skipping unreadable ones)
and flood-fill through markObject. -/
def markObjectLoop (env : Env) : Nat → Nat → HeapScope → gcMaskBitIterator →
    HeapScope × Int × Int
  | _, 0, s, _ => (s, 0, 0)
  | fuel, lfuel + 1, s, hb =>
    match nextPtr s.masks (some hb) true with
    | (0, _) => (s, 0, 0)
    | (ptr, hb1) =>
      let hb2 := hb1.getD hb
      match readUintRaw env.mem ptr 8 with
      | .error _ => markObjectLoop env fuel lfuel s hb2
      | .ok nptr =>
        match markObject env fuel s nptr with
        | (s1, size1, count1) =>
          match markObjectLoop env fuel lfuel s1 hb2 with
          | (s2, size2, count2) => (s2, size1 + size2, count1 + count2)
end

/-- reference.go: `func (s *ObjRefScope) record(idx *pprofIndex, size, count int64)` —
emits nothing when both deltas are zero. -/
def record (s : HeapScope) (idx : Option pprofIndex) (size count : Int) : HeapScope :=
  if size = 0 ∧ count = 0 then s
  else { s with pb := addReference s.pb (pprofIndexes idx) count size }

/-- reference.go: `func (s *ObjRefScope) finalMark(idx *pprofIndex, hb *gcMaskBitIterator)` —
drains a queued iterator through the untyped flood fill and records the fold
against the captured chain. -/
def finalMark (env : Env) (fuel : Nat) (s : HeapScope) (idx : Option pprofIndex)
    (hb : gcMaskBitIterator) : HeapScope :=
  match markObjectLoop env fuel (drainFuel hb) s hb with
  | (s1, size, count) => record s1 idx size count

/-- mapiter.go constants: the classic hmap tophash sentinels. -/
def hashTophashEmptyZero : Nat := 0

/-- mapiter.go: the second empty-cell sentinel of Go 1.12 and later. -/
def hashTophashEmptyOne : Nat := 1

/-- mapiter.go: minimum non-empty non-evacuated tophash, Go 1.11. -/
def hashMinTopHashGo111 : Nat := 4

/-- mapiter.go: minimum non-empty non-evacuated tophash, Go 1.12 and later. -/
def hashMinTopHashGo112 : Nat := 5

/-- mapiter.go: `type mapIteratorClassic struct`. -/
structure mapIteratorClassic where
  numbuckets : Nat
  oldmask : Nat
  buckets : Option ReferenceVariable
  oldbuckets : Option ReferenceVariable
  b : Option ReferenceVariable
  bidx : Nat
  keyTypeIsPtr : Bool
  elemTypeIsPtr : Bool
  tophashes : Option ReferenceVariable
  keys : Option ReferenceVariable
  values : Option ReferenceVariable
  overflow : Option ReferenceVariable
  maxNumBuckets : Nat
  idx : Int
  hashTophashEmptyOne : Nat
  hashMinTopHash : Nat
  objects : List ReferenceVariable
  size : Int
  count : Int

/-- The tophash-field loop of mapiter.go `mapEvacuated`: the first field
named tophash decides; an unreadable byte or a missing field counts as
evacuated. -/
def mapEvacuatedFields (env : Env) (emptyOne minTop : Nat) (baddr : Address) :
    List StructField → Bool
  | [] => true
  | f :: rest =>
    if f.name ≠ "tophash" then mapEvacuatedFields env emptyOne minTop baddr rest
    else
      match readUintRaw env.mem (Address.add baddr f.off) 1 with
      | .error _ => true
      | .ok tophash0 => decide (emptyOne < tophash0 ∧ tophash0 < minTop)

/-- mapiter.go: `func (it *mapIteratorClassic) mapEvacuated(b *ReferenceVariable) bool` —
a nil-address bucket is evacuated; otherwise tophash[0] strictly between the
version's emptyOne sentinel and minTopHash.  (The source asserts the bucket
type is a struct, which toMapIterator has checked.) -/
def mapEvacuated (env : Env) (it : mapIteratorClassic) (b : ReferenceVariable) : Bool :=
  if b.Addr = 0 then true
  else
    match b.RealType with
    | .structT _ _ fields =>
      mapEvacuatedFields env it.hashTophashEmptyOne it.hashMinTopHash b.Addr fields
    | _ => true

/-- The `for it.bidx < it.numbuckets` loop of mapiter.go `nextBucket`:
selects the current new bucket unless the map is growing and the
corresponding old bucket pair is unevacuated (then the first of the two new
buckets walks the old one and the second is skipped).  Fuel is the number of
remaining buckets. -/
def classicBucketLoop (env : Env) : Nat → mapIteratorClassic → mapIteratorClassic
  | 0, it => it
  | fuel + 1, it =>
    if it.bidx < it.numbuckets then
      match it.buckets with
      | none => it
      | some buckets =>
        let bv := { clone buckets with
          Addr := Address.add buckets.Addr (buckets.RealType.size * (it.bidx : Int)) }
        let it1 := { it with b := some bv }
        match it.oldbuckets with
        | none => it1
        | some oldbuckets =>
          let oldbidx := it.bidx &&& it.oldmask
          let oldb := { clone oldbuckets with
            Addr := Address.add oldbuckets.Addr (oldbuckets.RealType.size * (oldbidx : Int)) }
          if mapEvacuated env it oldb then it1
          else if oldbidx = it.bidx then { it1 with b := some oldb }
          else classicBucketLoop env fuel { it with b := none, bidx := it.bidx + 1 }
    else it

/-- The field scan at the end of mapiter.go `nextBucket`: projects tophash,
keys and values and dereferences the overflow pointer (accumulating its
object into the iterator's reference info). -/
def nextBucketFields (env : Env) (s : HeapScope) (bv : ReferenceVariable) :
    mapIteratorClassic → List StructField → HeapScope × mapIteratorClassic
  | it, [] => (s, it)
  | it, f :: rest =>
    if f.name = "tophash" then
      nextBucketFields env s bv { it with tophashes := some (toField bv f) } rest
    else if f.name = "keys" then
      nextBucketFields env s bv { it with keys := some (toField bv f) } rest
    else if f.name = "values" then
      nextBucketFields env s bv { it with values := some (toField bv f) } rest
    else if f.name = "overflow" then
      let field := toField bv f
      match dereference env s field with
      | (s1, some ov) =>
        let it1 := { it with overflow := some ov, count := it.count + ov.count, size := it.size + ov.size, objects := it.objects ++ [ov] }
        nextBucketFields env s1 bv it1 rest
      | (s1, none) => nextBucketFields env s1 bv { it with overflow := none } rest
    else nextBucketFields env s bv it rest

/-- The sanity checks at the end of mapiter.go `nextBucket`. -/
def nextBucketChecks (it : mapIteratorClassic) : Bool :=
  match it.tophashes, it.keys, it.values with
  | some tophashes, some keys, some values =>
    match tophashes.RealType, keys.RealType, values.RealType with
    | .arrayT _ _ tcount, .arrayT _ _ kcount, .arrayT _ vtyp vcount =>
      if tcount ≠ kcount then false
      else if 0 < vtyp.size ∧ tcount ≠ vcount then false
      else
        match it.overflow with
        | some ov =>
          match ov.RealType with
          | .structT _ _ _ => true
          | _ => false
        | none => true
    | _, _, _ => false
  | _, _, _ => false

/-- mapiter.go: `func (it *mapIteratorClassic) nextBucket(s *ObjRefScope) bool` —
advances to the next bucket: a pending overflow bucket first, otherwise the
bucket scan over `bidx`; then projects the bucket's fields and sanity-checks
them. -/
def nextBucket (env : Env) (s : HeapScope) (it : mapIteratorClassic) :
    HeapScope × mapIteratorClassic × Bool :=
  let cont := fun (s : HeapScope) (it : mapIteratorClassic) =>
    match it.b with
    | none => (s, it, false)
    | some bv =>
      if bv.Addr = 0 then (s, it, false)
      else
        let it1 := { it with tophashes := none, keys := none, values := none, overflow := none }
        match bv.RealType with
        | .structT _ _ fields =>
          match nextBucketFields env s bv it1 fields with
          | (s1, it2) => (s1, it2, nextBucketChecks it2)
        | _ => (s, it1, false)
  match it.overflow with
  | some ov =>
    if 0 < ov.Addr then cont s { it with b := some ov }
    else
      let it1 := { it with b := none }
      if 0 < it1.maxNumBuckets ∧ it1.maxNumBuckets ≤ it1.bidx then (s, it1, false)
      else
        let it2 := classicBucketLoop env (it1.numbuckets - it1.bidx + 1) it1
        match it2.b with
        | none => (s, it2, false)
        | some _ => cont s { it2 with bidx := it2.bidx + 1 }
  | none =>
    let it1 := { it with b := none }
    if 0 < it1.maxNumBuckets ∧ it1.maxNumBuckets ≤ it1.bidx then (s, it1, false)
    else
      let it2 := classicBucketLoop env (it1.numbuckets - it1.bidx + 1) it1
      match it2.b with
      | none => (s, it2, false)
      | some _ => cont s { it2 with bidx := it2.bidx + 1 }

/-- The `if it.b == nil` head of one `next` iteration: fetch a bucket when
none is current; the third component is false when the iteration must
return false (with the state mutations nextBucket already made). -/
def classicEnsureBucket1 (env : Env) (s : HeapScope) (it : mapIteratorClassic) :
    HeapScope × mapIteratorClassic × Bool :=
  match it.b with
  | none =>
    match nextBucket env s it with
    | (s1, it1, false) => (s1, it1, false)
    | (s1, it1, true) => (s1, { it1 with idx := 0 }, true)
  | some _ => (s, it, true)

/-- The `if it.idx >= tophashesType.Count` head of one `next` iteration:
cross to the next bucket when the current one is exhausted.  (The source
would nil-panic if tophashes were missing or not an array; nextBucket's
sanity checks rule that out, and the model returns false there.) -/
def classicEnsureBucket2 (env : Env) (s : HeapScope) (it : mapIteratorClassic) :
    HeapScope × mapIteratorClassic × Bool :=
  match it.tophashes with
  | none => (s, it, false)
  | some tophashes =>
    match tophashes.RealType with
    | .arrayT _ _ tcount =>
      if tcount ≤ it.idx then
        match nextBucket env s it with
        | (s1, it1, false) => (s1, it1, false)
        | (s1, it1, true) => (s1, { it1 with idx := 0 }, true)
      else (s, it, true)
    | _ => (s, it, false)

/-- mapiter.go: `func (it *mapIteratorClassic) next(s *ObjRefScope) bool` —
yields the next occupied cell: advances buckets as needed, reads the cell's
tophash byte (via the cloned per-cell variable of the source, whose address
is `tophashes.Addr + elemSize*idx`), advances the cell index, and returns
true exactly when the byte differs from both empty sentinels.  Fuel bounds
the loop iterations (one cell each). -/
def classicNext (env : Env) : Nat → HeapScope → mapIteratorClassic →
    HeapScope × mapIteratorClassic × Bool
  | 0, s, it => (s, it, false)
  | fuel + 1, s, it =>
    match classicEnsureBucket1 env s it with
    | (s1, it1, false) => (s1, it1, false)
    | (s1, it1, true) =>
      match classicEnsureBucket2 env s1 it1 with
      | (s2, it2, false) => (s2, it2, false)
      | (s2, it2, true) =>
        match it2.tophashes with
        | none => (s2, it2, false)
        | some tophashes =>
          match tophashes.RealType with
          | .arrayT _ telem _ =>
            match readUintRaw env.mem (Address.add tophashes.Addr (telem.size * it2.idx)) 1 with
            | .error _ => (s2, it2, false)
            | .ok h =>
              let it3 := { it2 with idx := it2.idx + 1 }
              if h ≠ hashTophashEmptyZero ∧ h ≠ it3.hashTophashEmptyOne then (s2, it3, true)
              else classicNext env fuel s2 it3
          | _ => (s2, it2, false)

/-- mapiter.go `kv`: rebase a cloned keys/values array variable onto the
cell yielded last (`idx - 1`) with the resolved element type. -/
def classicKv (it : mapIteratorClassic) (v : ReferenceVariable) : Option ReferenceVariable :=
  match v.RealType with
  | .arrayT _ elem _ =>
    let rt := resolveTypedef elem
    some { v with RealType := rt, Addr := Address.add v.Addr (rt.size * (it.idx - 1)) }
  | _ => none

/-- mapiter.go: `func (it *mapIteratorClassic) key()`. -/
def classicKey (it : mapIteratorClassic) : Option ReferenceVariable :=
  match it.keys with
  | some keys => classicKv it (clone keys)
  | none => none

/-- mapiter.go: `func (it *mapIteratorClassic) value()`. -/
def classicValue (it : mapIteratorClassic) : Option ReferenceVariable :=
  match it.values with
  | some values => classicKv it (clone values)
  | none => none

/-- mapiter.go: `swissTableCtrlEmpty = 0b10000000`. -/
def swissTableCtrlEmpty : Nat := 128

/-- mapiter.go: `type swissTable struct { index int64; groups *ReferenceVariable }`. -/
structure swissTable where
  index : Int
  groups : Option ReferenceVariable

/-- mapiter.go: `type swissGroup struct { slots *ReferenceVariable; ctrls []byte }`. -/
structure swissGroup where
  slots : Option ReferenceVariable
  ctrls : List Nat

/-- mapiter.go: `type mapIteratorSwiss struct`. -/
structure mapIteratorSwiss where
  dirPtr : Option ReferenceVariable
  dirLen : Int
  maxNumGroups : Nat
  keyTypeIsPtr : Bool
  elemTypeIsPtr : Bool
  tableType : Option GoType
  groupType : Option GoType
  tableFieldIndex : Option StructField
  tableFieldGroups : Option StructField
  groupsFieldLengthMask : Option StructField
  groupsFieldData : Option StructField
  groupFieldCtrl : Option StructField
  groupFieldSlots : Option StructField
  slotFieldKey : Option StructField
  slotFieldElem : Option StructField
  dirIdx : Int
  tab : Option swissTable
  groupIdx : Nat
  group : Option swissGroup
  slotIdx : Nat
  groupCount : Nat
  curKey : Option ReferenceVariable
  curValue : Option ReferenceVariable
  objects : List ReferenceVariable
  size : Int
  count : Int

/-- The groups-field scan inside `loadTypes` (data and lengthMask). -/
def swissScanGroupsFields (it : mapIteratorSwiss) : List StructField → mapIteratorSwiss
  | [] => it
  | f :: rest =>
    if f.name = "data" then
      let it1 := { it with groupsFieldData := some f }
      let it2 :=
        match f.typ with
        | .ptr _ gptee =>
          match resolveTypedef gptee with
          | .structT c sn gf => { it1 with groupType := some (.structT c sn gf) }
          | _ => it1
        | _ => it1
      swissScanGroupsFields it2 rest
    else if f.name = "lengthMask" then
      swissScanGroupsFields { it with groupsFieldLengthMask := some f } rest
    else swissScanGroupsFields it rest

/-- The table-field scan of mapiter.go `loadTypes` (collects index and
groups handles and, inside groups, the data and lengthMask handles plus the
group struct type). -/
def swissScanTableFields (it : mapIteratorSwiss) : List StructField → mapIteratorSwiss
  | [] => it
  | f :: rest =>
    if f.name = "index" then swissScanTableFields { it with tableFieldIndex := some f } rest
    else if f.name = "groups" then
      let it1 := { it with tableFieldGroups := some f }
      let it2 :=
        match f.typ with
        | .structT _ _ gfields => swissScanGroupsFields it1 gfields
        | _ => it1
      swissScanTableFields it2 rest
    else swissScanTableFields it rest

/-- The group-field scan of `loadTypes` (ctrl and slots). -/
def swissScanGroupType (it : mapIteratorSwiss) : List StructField → mapIteratorSwiss
  | [] => it
  | f :: rest =>
    if f.name = "ctrl" then swissScanGroupType { it with groupFieldCtrl := some f } rest
    else if f.name = "slots" then swissScanGroupType { it with groupFieldSlots := some f } rest
    else swissScanGroupType it rest

/-- The slot-field scan of `loadTypes` (key and elem). -/
def swissScanSlotType (it : mapIteratorSwiss) : List StructField → mapIteratorSwiss
  | [] => it
  | f :: rest =>
    if f.name = "key" then swissScanSlotType { it with slotFieldKey := some f } rest
    else if f.name = "elem" then swissScanSlotType { it with slotFieldElem := some f } rest
    else swissScanSlotType it rest

/-- mapiter.go: `func (it *mapIteratorSwiss) loadTypes(s *ObjRefScope) error` —
recovers the real type of dirPtr (recorded by the linker as **table):
`*[dirLen]*table` for large maps, `*group` (a one-element group array) for
small maps, collecting the DWARF field handles used per bucket, then
dereferences dirPtr.  Returns the mutated scope and iterator, plus the error
when the swiss map type lacks required fields. -/
def swissLoadTypes (env : Env) (s : HeapScope) (it : mapIteratorSwiss) :
    HeapScope × mapIteratorSwiss × Option GError :=
  match it.dirPtr with
  | none => (s, it, some .misc)
  | some dirPtr =>
    match dirPtr.RealType with
    | .ptr _ tableptrtyp =>
      match tableptrtyp with
      | .ptr _ ttyp =>
        match ttyp with
        | .structT tc tsn tfields =>
          let it1 := swissScanTableFields { it with tableType := some (.structT tc tsn tfields) } tfields
          match it1.groupType, it1.tableFieldIndex, it1.tableFieldGroups, it1.groupsFieldLengthMask with
          | some gt, some _, some _, some _ =>
            let it2 :=
              match gt with
              | .structT _ _ gfields => swissScanGroupType it1 gfields
              | _ => it1
            match it2.groupFieldCtrl, it2.groupFieldSlots with
            | some _, some slotsF =>
              match resolveTypedef slotsF.typ with
              | .arrayT _ slotT _ =>
                match slotT with
                | .structT _ _ sfields =>
                  let it3 := swissScanSlotType it2 sfields
                  match it3.slotFieldKey, it3.slotFieldElem with
                  | some _, some _ =>
                    if it3.dirLen ≤ 0 then
                      let dp := { dirPtr with RealType := pointerTo (fakeArrayType 1 gt) }
                      match dereference env s dp with
                      | (s1, none) => (s1, { it3 with dirPtr := some dp }, some .misc)
                      | (s1, some dp1) =>
                        let it4 := { it3 with dirPtr := some dp1, size := it3.size + dp1.size, count := it3.count + dp1.count, objects := it3.objects ++ [dp1], dirLen := 1, tab := some { index := 0, groups := some dp1 } }
                        (s1, it4, none)
                    else
                      let dp := { dirPtr with RealType := pointerTo (fakeArrayType it3.dirLen.toNat tableptrtyp) }
                      match dereference env s dp with
                      | (s1, none) => (s1, { it3 with dirPtr := some dp }, some .misc)
                      | (s1, some dp1) =>
                        let it4 := { it3 with dirPtr := some dp1, size := it3.size + dp1.size, count := it3.count + dp1.count, objects := it3.objects ++ [dp1] }
                        (s1, it4, none)
                  | _, _ => (s, it3, some .misc)
                | _ => (s, it2, some .misc)
              | _ => (s, it2, some .misc)
            | _, _ => (s, it2, some .misc)
          | _, _, _, _ => (s, it1, some .misc)
        | _ => (s, it, some .misc)
      | _ => (s, it, some .misc)
    | _ => (s, it, some .misc)

/-- mapiter.go: `func (it *mapIteratorSwiss) loadCurrentTable(s *ObjRefScope)` —
dereferences the table pointer at directory index dirIdx, reads its index
and lengthMask and dereferences its groups array. -/
def swissLoadCurrentTable (env : Env) (s : HeapScope) (it : mapIteratorSwiss) :
    HeapScope × mapIteratorSwiss × Option GError :=
  match it.dirPtr with
  | none => (s, it, some .misc)
  | some dirPtr =>
    match arrayAccess dirPtr it.dirIdx with
    | none => (s, it, some .misc)
    | some tab0 =>
      match dereference env s tab0 with
      | (s1, none) => (s1, it, some .misc)
      | (s1, some tab) =>
        let it1 := { it with size := it.size + tab.size, count := it.count + tab.count, objects := it.objects ++ [tab] }
        match it1.tableFieldIndex, it1.tableFieldGroups, it1.groupsFieldData, it1.groupsFieldLengthMask, it1.groupType with
        | some fIndex, some fGroups, some fData, some fMask, some gt =>
          match asInt env (toField tab fIndex) with
          | .error _ => (s1, it1, some .misc)
          | .ok rindex =>
            let groups := toField tab fGroups
            let rgroups := toField groups fData
            match asUint env (toField groups fMask) with
            | .error _ => (s1, it1, some .misc)
            | .ok lengthMask =>
              let rgroups1 := { rgroups with RealType := pointerTo (fakeArrayType (lengthMask + 1) gt) }
              match dereference env s1 rgroups1 with
              | (s2, none) => (s2, it1, some .misc)
              | (s2, some rg) =>
                let it2 := { it1 with size := it1.size + rg.size, count := it1.count + rg.count, objects := it1.objects ++ [rg], tab := some { index := rindex, groups := some rg } }
                (s2, it2, none)
        | _, _, _, _, _ => (s1, it1, some .misc)

/-- mapiter.go: `func (it *mapIteratorSwiss) loadCurrentGroup() error` —
projects the slots of the group at groupIdx and reads its control bytes. -/
def swissLoadCurrentGroup (env : Env) (it : mapIteratorSwiss) :
    mapIteratorSwiss × Option GError :=
  match it.tab with
  | none => (it, some .misc)
  | some tab =>
    match tab.groups with
    | none => (it, some .misc)
    | some groups =>
      match arrayAccess groups (it.groupIdx : Int) with
      | none => (it, some .misc)
      | some group =>
        match it.groupFieldSlots, it.groupFieldCtrl with
        | some fSlots, some fCtrl =>
          let slots := toField group fSlots
          let ctrl := toField group fCtrl
          match readBytes env.mem ctrl.Addr ctrl.RealType.size.toNat with
          | none => (it, some .readFail)
          | some ctrls => ({ it with group := some { slots := some slots, ctrls := ctrls } }, none)
        | _, _ => (it, some .misc)

/-- mapiter.go: `func (it *mapIteratorSwiss) nextTable()`. -/
def swissNextTable (it : mapIteratorSwiss) : mapIteratorSwiss :=
  { it with dirIdx := it.dirIdx + 1, tab := none }

/-- mapiter.go: `func (it *mapIteratorSwiss) nextGroup()`. -/
def swissNextGroup (it : mapIteratorSwiss) : mapIteratorSwiss :=
  { it with groupIdx := it.groupIdx + 1, group := none }

/-- mapiter.go: `func (it *mapIteratorSwiss) slotIsEmptyOrDeleted(k uint32) bool`. -/
def slotIsEmptyOrDeleted (it : mapIteratorSwiss) (k : Nat) : Bool :=
  match it.group with
  | some g => g.ctrls.getD k 0 &&& swissTableCtrlEmpty = swissTableCtrlEmpty
  | none => false

/-- The indirect-key dereference step of swiss `next`. -/
def swissMaybeDerefKey (env : Env) (s : HeapScope) (it : mapIteratorSwiss) :
    HeapScope × mapIteratorSwiss :=
  match it.curKey with
  | some ck =>
    match ck.RealType with
    | .ptr _ _ =>
      if !it.keyTypeIsPtr then
        match dereference env s ck with
        | (s1, some ck1) =>
          (s1, { it with curKey := some ck1, size := it.size + ck1.size, count := it.count + ck1.count, objects := it.objects ++ [ck1] })
        | (s1, none) => (s1, { it with curKey := none })
      else (s, it)
    | _ => (s, it)
  | none => (s, it)

/-- The indirect-value dereference step of swiss `next`. -/
def swissMaybeDerefValue (env : Env) (s : HeapScope) (it : mapIteratorSwiss) :
    HeapScope × mapIteratorSwiss :=
  match it.curValue with
  | some cv =>
    match cv.RealType with
    | .ptr _ _ =>
      if !it.elemTypeIsPtr then
        match dereference env s cv with
        | (s1, some cv1) =>
          (s1, { it with curValue := some cv1, size := it.size + cv1.size, count := it.count + cv1.count, objects := it.objects ++ [cv1] })
        | (s1, none) => (s1, { it with curValue := none })
      else (s, it)
    | _ => (s, it)
  | none => (s, it)

/-- The slot loop of mapiter.go swiss `next` (`for ; it.slotIdx < countSlots`):
skips empty or deleted slots, projects key and elem of the current slot, and
auto-dereferences indirectly stored keys and values so the yielded variable
matches the declared map key/value type.  Fuel is the remaining slot count. -/
def swissSlotLoop (env : Env) : Nat → Int → HeapScope → mapIteratorSwiss →
    HeapScope × mapIteratorSwiss × Bool
  | 0, _, s, it => (s, it, false)
  | fuel + 1, countSlots, s, it =>
    if (it.slotIdx : Int) < countSlots then
      if slotIsEmptyOrDeleted it it.slotIdx then
        swissSlotLoop env fuel countSlots s { it with slotIdx := it.slotIdx + 1 }
      else
        match it.group with
        | none => (s, it, false)
        | some g =>
          match g.slots with
          | none => (s, it, false)
          | some slots =>
            match arrayAccess slots (it.slotIdx : Int) with
            | none => (s, it, false)
            | some cur =>
              match it.slotFieldKey, it.slotFieldElem with
              | some fKey, some fElem =>
                let it1 := { it with curKey := some (toField cur fKey), curValue := some (toField cur fElem) }
                match swissMaybeDerefKey env s it1 with
                | (s1, it2) =>
                  match swissMaybeDerefValue env s1 it2 with
                  | (s2, it3) => (s2, { it3 with slotIdx := it3.slotIdx + 1 }, true)
              | _, _ => (s, it, false)
    else (s, { it with slotIdx := 0 }, false)

/-- The group loop of swiss `next` (`for ; it.groupIdx < countGroups`). -/
def swissGroupLoop (env : Env) : Nat → Nat → HeapScope → mapIteratorSwiss →
    HeapScope × mapIteratorSwiss × Option Bool
  | 0, _, s, it => (s, it, some false)
  | fuel + 1, countGroups, s, it =>
    if it.groupIdx < countGroups then
      if 0 < it.maxNumGroups ∧ it.maxNumGroups ≤ it.groupIdx + it.groupCount then (s, it, some false)
      else
        match (match it.group with
               | none => swissLoadCurrentGroup env it
               | some _ => (it, none)) with
        | (it1, some _) => (s, it1, some false)
        | (it1, none) =>
          match it1.group with
          | none => (s, it1, some false)
          | some g =>
            match g.slots with
            | none => (s, it1, some false)
            | some slots =>
              match slots.RealType with
              | .arrayT _ _ countSlots =>
                match swissSlotLoop env (countSlots.toNat - it1.slotIdx + 1) countSlots s it1 with
                | (s1, it2, true) => (s1, it2, some true)
                | (s1, it2, false) => swissGroupLoop env fuel countGroups s1 (swissNextGroup it2)
              | _ => (s, it1, some false)
    else (s, it, none)

/-- mapiter.go: swiss `func (it *mapIteratorSwiss) next(s *ObjRefScope) bool` —
walks the table directory, the groups of each table and the slots of each
group, yielding each occupied slot.  Fuel bounds the directory loop. -/
def swissNext (env : Env) : Nat → HeapScope → mapIteratorSwiss →
    HeapScope × mapIteratorSwiss × Bool
  | 0, s, it => (s, it, false)
  | fuel + 1, s, it =>
    if it.dirIdx < it.dirLen then
      match (match it.tab with
             | none =>
               match swissLoadCurrentTable env s it with
               | (s1, it1, some _) => (s1, it1, none)
               | (s1, it1, none) =>
                 match it1.tab with
                 | none => (s1, it1, none)
                 | some tab =>
                   if tab.index ≠ it1.dirIdx then (s1, swissNextTable it1, some false)
                   else (s1, it1, some true)
             | some _ => (s, it, some true)) with
      | (s1, it1, none) => (s1, it1, false)
      | (s1, it1, some false) => swissNext env fuel s1 it1
      | (s1, it1, some true) =>
        let countGroups :=
          match it1.tab with
          | some tab =>
            match tab.groups with
            | some groups => arrayLen groups
            | none => 0
          | none => 0
        match swissGroupLoop env (countGroups - it1.groupIdx + 1) countGroups s1 it1 with
        | (s2, it2, some r) => (s2, it2, r)
        | (s2, it2, none) =>
          let it3 := swissNextTable { it2 with groupCount := it2.groupCount + it2.groupIdx, groupIdx := 0, group := none }
          swissNext env fuel s2 it3
    else (s, it, false)

/-- mapiter.go: `type mapIterator interface` — the closed variant of the two
dialects. -/
inductive mapIterator where
  | classic (it : mapIteratorClassic)
  | swiss (it : mapIteratorSwiss)

/-- Interface dispatch of `next`. -/
def mapIterNext (env : Env) (fuel : Nat) (s : HeapScope) :
    mapIterator → HeapScope × mapIterator × Bool
  | .classic it =>
    match classicNext env fuel s it with
    | (s1, it1, r) => (s1, .classic it1, r)
  | .swiss it =>
    match swissNext env fuel s it with
    | (s1, it1, r) => (s1, .swiss it1, r)

/-- Interface dispatch of `key()`. -/
def mapIterKey : mapIterator → Option ReferenceVariable
  | .classic it => classicKey it
  | .swiss it => it.curKey

/-- Interface dispatch of `value()`. -/
def mapIterValue : mapIterator → Option ReferenceVariable
  | .classic it => classicValue it
  | .swiss it => it.curValue

/-- Interface dispatch of `referenceInfo()`. -/
def mapIterReferenceInfo : mapIterator → List ReferenceVariable × Int × Int
  | .classic it => (it.objects, it.size, it.count)
  | .swiss it => (it.objects, it.size, it.count)

/-- The field loop of mapiter.go `toMapIterator`: reads `B` (bucket-count
log) with its wrapping uint64 shifts, dereferences `buckets`/`oldbuckets`
into the classic iterator, and collects `dirPtr`/`dirLen` into the swiss
iterator.  Read errors of `B` or `dirLen` abort with the error. -/
def toMapIteratorFields (env : Env) (hmap : ReferenceVariable) :
    HeapScope → mapIteratorClassic → mapIteratorSwiss → List StructField →
    HeapScope × mapIteratorClassic × mapIteratorSwiss × Option GError
  | s, it, isw, [] => (s, it, isw, none)
  | s, it, isw, f :: rest =>
    if f.name = "B" then
      match readUintRaw env.mem (Address.add hmap.Addr f.off) 1 with
      | .error e => (s, it, isw, some e)
      | .ok b =>
        let nb := if b < 64 then 1 <<< b else 0
        let p := if 1 ≤ b ∧ b ≤ 64 then 1 <<< (b - 1) else 0
        let om := (p + two64 - 1) % two64
        toMapIteratorFields env hmap s { it with numbuckets := nb, oldmask := om } isw rest
    else if f.name = "buckets" then
      match dereference env s (toField hmap f) with
      | (s1, some buckets) =>
        let it1 := { it with buckets := some buckets, size := it.size + buckets.size, count := it.count + buckets.count, objects := it.objects ++ [buckets] }
        toMapIteratorFields env hmap s1 it1 isw rest
      | (s1, none) => toMapIteratorFields env hmap s1 it isw rest
    else if f.name = "oldbuckets" then
      match dereference env s (toField hmap f) with
      | (s1, some oldbuckets) =>
        let it1 := { it with oldbuckets := some oldbuckets, size := it.size + oldbuckets.size, count := it.count + oldbuckets.count, objects := it.objects ++ [oldbuckets] }
        toMapIteratorFields env hmap s1 it1 isw rest
      | (s1, none) => toMapIteratorFields env hmap s1 it isw rest
    else if f.name = "dirPtr" then
      let isw1 := { isw with dirPtr := some (newReferenceVariable (Address.add hmap.Addr f.off) "" f.typ hmap.hb) }
      toMapIteratorFields env hmap s it isw1 rest
    else if f.name = "dirLen" then
      match readIntRaw env.mem (Address.add hmap.Addr f.off) 8 with
      | .error e => (s, it, isw, some e)
      | .ok v => toMapIteratorFields env hmap s it { isw with dirLen := v } rest
    else toMapIteratorFields env hmap s it isw rest

/-- The zero classic iterator of `toMapIterator` (Go composite literal). -/
def mkClassicIterator (keyIsPtr elemIsPtr : Bool) (size count : Int) : mapIteratorClassic :=
  { numbuckets := 0, oldmask := 0, buckets := none, oldbuckets := none, b := none, bidx := 0,
    keyTypeIsPtr := keyIsPtr, elemTypeIsPtr := elemIsPtr, tophashes := none, keys := none,
    values := none, overflow := none, maxNumBuckets := 0, idx := 0, hashTophashEmptyOne := 0,
    hashMinTopHash := 0, objects := [], size := size, count := count }

/-- The zero swiss iterator of `toMapIterator`. -/
def mkSwissIterator (keyIsPtr elemIsPtr : Bool) (size count : Int) : mapIteratorSwiss :=
  { dirPtr := none, dirLen := 0, maxNumGroups := 0, keyTypeIsPtr := keyIsPtr,
    elemTypeIsPtr := elemIsPtr, tableType := none, groupType := none, tableFieldIndex := none,
    tableFieldGroups := none, groupsFieldLengthMask := none, groupsFieldData := none,
    groupFieldCtrl := none, groupFieldSlots := none, slotFieldKey := none, slotFieldElem := none,
    dirIdx := 0, tab := none, groupIdx := 0, group := none, slotIdx := 0, groupCount := 0,
    curKey := none, curValue := none, objects := [], size := size, count := count }

/-- Whether a godwarf type is a PtrType (the `isptr` closure of
toMapIterator). -/
def isPtrType : GoType → Bool
  | .ptr _ _ => true
  | _ => false

/-- mapiter.go: `func (s *ObjRefScope) toMapIterator(hmap *ReferenceVariable, keyType, elemType godwarf.Type)` —
structurally selects the classic or swiss dialect from the hmap's DWARF
fields; classic maps get the version-dependent tophash sentinels (the
producer check `ProducerAfterOrEqual(producer, 1, 12)`). -/
def toMapIterator (env : Env) (s : HeapScope) (hmap : ReferenceVariable)
    (keyType elemType : GoType) : HeapScope × Except GError mapIterator :=
  if hmap.Addr = 0 then (s, .error .misc)
  else
    match hmap.RealType with
    | .structT _ _ fields =>
      let it0 := mkClassicIterator (isPtrType keyType) (isPtrType elemType) hmap.size hmap.count
      let isw0 := mkSwissIterator (isPtrType keyType) (isPtrType elemType) hmap.size hmap.count
      match toMapIteratorFields env hmap s it0 isw0 fields with
      | (s1, _, _, some e) => (s1, .error e)
      | (s1, it1, isw1, none) =>
        if it1.buckets.isNone && isw1.dirPtr.isSome then
          match swissLoadTypes env s1 isw1 with
          | (s2, _, some e) => (s2, .error e)
          | (s2, isw2, none) => (s2, .ok (.swiss isw2))
        else
          let bucketsOk :=
            match it1.buckets with
            | some bv =>
              match bv.RealType with
              | .structT _ _ _ => true
              | _ => false
            | none => true
          let oldbucketsOk :=
            match it1.oldbuckets with
            | some bv =>
              match bv.RealType with
              | .structT _ _ _ => true
              | _ => false
            | none => true
          if !bucketsOk ∨ !oldbucketsOk then (s1, .error .misc)
          else
            let it2 :=
              if env.producerGe112 then
                { it1 with hashTophashEmptyOne := hashTophashEmptyOne, hashMinTopHash := hashMinTopHashGo112 }
              else
                { it1 with hashTophashEmptyOne := hashTophashEmptyZero, hashMinTopHash := hashMinTopHashGo111 }
            (s1, .ok (.classic it2))
    | _ => (s, .error .misc)

/-- The field loop of variables.go `readStringInfo`: `len` by a
range-checked read whose error is discarded, `str` by readPointer whose
error aborts. -/
def readStringInfoFields (env : Env) (x : ReferenceVariable) :
    MaskStore → Nat → Nat → List StructField → Except GError (Nat × Nat × MaskStore)
  | masks, addr, strlen, [] => .ok (addr, strlen, masks)
  | masks, addr, strlen, f :: rest =>
    if f.name = "len" then
      let l := (readUint64 env x (Address.add x.Addr f.off)).toOption.getD 0
      readStringInfoFields env x masks addr l rest
    else if f.name = "str" then
      match readPointer env masks x (Address.add x.Addr f.off) with
      | .error e => .error e
      | .ok (a, masks1) => readStringInfoFields env x masks1 a strlen rest
    else readStringInfoFields env x masks addr strlen rest

/-- variables.go: `func readStringInfo(str *ReferenceVariable) (addr, strlen uint64, err error)`. -/
def readStringInfo (env : Env) (masks : MaskStore) (x : ReferenceVariable) :
    Except GError (Nat × Nat × MaskStore) :=
  match x.RealType with
  | .stringT _ fields => readStringInfoFields env x masks 0 0 fields
  | _ => .ok (0, 0, masks)

/-- The itab-field scan of variables.go `readInterface`: the runtime type
variable lives at `itab + offsetof(Type|_type)`. -/
def readInterfaceTabFields (ptr : Nat) : Option Nat → List StructField → Option Nat
  | acc, [] => acc
  | acc, tf :: rest =>
    if tf.name = "Type" ∨ tf.name = "_type" then
      readInterfaceTabFields ptr (some (Address.add ptr tf.off)) rest
    else readInterfaceTabFields ptr acc rest

/-- The iface-field loop of variables.go `readInterface`. -/
def readInterfaceFields (env : Env) (v : ReferenceVariable) :
    Option Nat → Option ReferenceVariable → List StructField →
    Option Nat × Option ReferenceVariable
  | ty, data, [] => (ty, data)
  | ty, data, f :: rest =>
    if f.name = "tab" then
      match readUint64 env v (Address.add v.Addr f.off) with
      | .error _ => readInterfaceFields env v ty data rest
      | .ok ptr =>
        if ptr ≠ 0 then
          let ty1 :=
            match f.typ with
            | .ptr _ ptee =>
              match resolveTypedef ptee with
              | .structT _ _ tfields => readInterfaceTabFields ptr ty tfields
              | _ => ty
            | _ => ty
          readInterfaceFields env v ty1 data rest
        else readInterfaceFields env v ty data rest
    else if f.name = "_type" then
      readInterfaceFields env v (some (Address.add v.Addr f.off)) data rest
    else if f.name = "data" then
      readInterfaceFields env v ty (some (newReferenceVariable (Address.add v.Addr f.off) "" f.typ v.hb)) rest
    else readInterfaceFields env v ty data rest

/-- variables.go: `func (s *ObjRefScope) readInterface(v *ReferenceVariable) (_type *proc.Variable, data *ReferenceVariable)` —
the runtime-type variable is modelled by its target address (all the caller
passes to RuntimeTypeToDIE); the data slot shares the parent's heap bits. -/
def readInterface (env : Env) (v : ReferenceVariable) :
    Option Nat × Option ReferenceVariable :=
  match v.RealType with
  | .ifaceT _ fields => readInterfaceFields env v none none fields
  | _ => (none, none)

/-- The name test of reference.go `atomicPointerRegex`
(`^sync/atomic\.Pointer\[.*\]$`; DWARF type names contain no newline). -/
def isAtomicPointerName (s : String) : Bool :=
  s.startsWith "sync/atomic.Pointer[" && s.endsWith "]"

/-- reference.go: `func (s *ObjRefScope) specialStructTypes(st *godwarf.StructType)` —
for sync/atomic.Pointer[T], retypes field 2 (`v`) to the pointer type stored
in field 0's one-element array (the source asserts that shape, which the
compiler-generated DWARF guarantees; other shapes fall through
unchanged). -/
def specialStructTypes (t : GoType) : GoType :=
  match t with
  | .structT c sname fields =>
    if isAtomicPointerName sname then
      match fields.get? 0, fields.get? 2 with
      | some f0, some f2 =>
        match f0.typ with
        | .arrayT _ elem _ => .structT c sname (fields.set 2 (.mk f2.name f2.off elem))
        | _ => t
      | _, _ => t
    else t
  | _ => t

/-- The `errors.Is(err, errOutOfRange)` test of findRef. -/
def isErrOutOfRange : Except GError Unit → Bool
  | .error .outOfRange => true
  | _ => false

/-- The buf/dataqsiz field loop of findRef's channel case: `buf` read by
readPointer (error aborts), `dataqsiz` by a range-checked read whose error
leaves zero. -/
def chanFields (env : Env) (y : ReferenceVariable) :
    MaskStore → Nat → Nat → List StructField → Except GError (Nat × Nat × MaskStore)
  | masks, zptrval, chanLen, [] => .ok (zptrval, chanLen, masks)
  | masks, zptrval, chanLen, f :: rest =>
    if f.name = "buf" then
      match readPointer env masks y (Address.add y.Addr f.off) with
      | .error e => .error e
      | .ok (z, masks1) => chanFields env y masks1 z chanLen rest
    else if f.name = "dataqsiz" then
      let l := (readUint64 env y (Address.add y.Addr f.off)).toOption.getD 0
      chanFields env y masks zptrval l rest
    else chanFields env y masks zptrval chanLen rest

/-- The array/cap field loop of findRef's slice case. -/
def findRefSliceFields (env : Env) (x : ReferenceVariable) :
    MaskStore → Nat → Nat → List StructField → Except GError (Nat × Nat × MaskStore)
  | masks, base, capV, [] => .ok (base, capV, masks)
  | masks, base, capV, f :: rest =>
    if f.name = "array" then
      match readPointer env masks x (Address.add x.Addr f.off) with
      | .error e => .error e
      | .ok (b, masks1) => findRefSliceFields env x masks1 b capV rest
    else if f.name = "cap" then
      let c := (readUint64 env x (Address.add x.Addr f.off)).toOption.getD 0
      findRefSliceFields env x masks base c rest
    else findRefSliceFields env x masks base capV rest

/-- The `avoid missing memory` loop after the map iteration in findRef:
iterator-internal objects with unconsumed pointer bits are queued for the
final-mark pass under the map's chain. -/
def findRefMapResiduals (s : HeapScope) (idx : Option pprofIndex) :
    List ReferenceVariable → HeapScope
  | [] => s
  | obj :: rest =>
    if (nextPtr s.masks obj.hb false).1 ≠ 0 then
      findRefMapResiduals { s with finalMarks := s.finalMarks ++ [{ idx := idx, hb := obj.hb }] } idx rest
    else findRefMapResiduals s idx rest


mutual
/-- reference.go: `func (s *ObjRefScope) findRef(x *ReferenceVariable, idx *pprofIndex) (err error)` —
the traversal driver.  Named variables refuse to descend once the chain
depth reaches the configured maximum (before any recording), otherwise push
their name and record their accumulated size/count on exit; unnamed (newly
found heap) variables instead queue their iterator for the final-mark pass
when set pointer bits remain on exit.  Fuel bounds the recursion depth and
the per-container loops; each claim theorem quantifies over or fixes
sufficient fuel. -/
def findRef (env : Env) (cfg : RefConfig) :
    Nat → HeapScope → ReferenceVariable → Option pprofIndex →
    HeapScope × ReferenceVariable × Except GError Unit
  | 0, s, x, _ => (s, x, .ok ())
  | fuel + 1, s, x, idx =>
    if x.Name ≠ "" then
      let truncated :=
        match idx with
        | some p => decide (cfg.maxRefDepth ≤ p.depthOf)
        | none => false
      if truncated then (s, x, .ok ())
      else
        match pushHead idx s.pb x.Name with
        | (idx1, pb1) =>
          match findRefBody env cfg fuel { s with pb := pb1 } x idx1 with
          | (s1, x1, err) => (record s1 idx1 x1.size x1.count, x1, err)
    else
      match findRefBody env cfg fuel s x idx with
      | (s1, x1, err) =>
        if (nextPtr s1.masks x1.hb false).1 ≠ 0 then
          ({ s1 with finalMarks := s1.finalMarks ++ [{ idx := idx, hb := x1.hb }] }, x1, err)
        else (s1, x1, err)

/-- The type dispatch (switch on x.RealType) of findRef.  The fuel, a model
artifact, is spent one unit per call along the mutual recursion so that the
whole group is structurally recursive; exhaustion returns the state
unchanged. -/
def findRefBody (env : Env) (cfg : RefConfig) :
    Nat → HeapScope → ReferenceVariable → Option pprofIndex →
    HeapScope × ReferenceVariable × Except GError Unit
  | 0, s, x, _ => (s, x, .ok ())
  | fuel + 1, s, x, idx =>
  match x.RealType with
  | .ptr _ elem =>
    match readPointer env s.masks x x.Addr with
    | .error e => (s, x, .error e)
    | .ok (ptrval, masks1) =>
      match findObject env { s with masks := masks1 } ptrval (resolveTypedef elem) with
      | (s1, none) => (s1, x, .ok ())
      | (s1, some y) =>
        match findRef env cfg fuel s1 y idx with
        | (s2, y1, _) => (s2, { x with size := x.size + y1.size, count := x.count + y1.count }, .ok ())
  | .chanT _ hchan elem =>
    match readPointer env s.masks x x.Addr with
    | .error e => (s, x, .error e)
    | .ok (ptrval, masks1) =>
      match findObject env { s with masks := masks1 } ptrval (resolveTypedef hchan) with
      | (s1, none) => (s1, x, .ok ())
      | (s1, some y) =>
        let x1 := { x with size := x.size + y.size, count := x.count + y.count }
        match y.RealType with
        | .structT _ _ fields =>
          match chanFields env y s1.masks 0 0 fields with
          | .error e => (s1, x1, .error e)
          | .ok (zptrval, chanLen, masks2) =>
            match findObject env { s1 with masks := masks2 } zptrval (fakeArrayType chanLen elem) with
            | (s2, none) => (s2, x1, .ok ())
            | (s2, some z) =>
              match findRef env cfg fuel s2 z idx with
              | (s3, z1, _) => (s3, { x1 with size := x1.size + z1.size, count := x1.count + z1.count }, .ok ())
        | _ => (s1, x1, .ok ())
  | .mapT _ hmap keyT elemT =>
    match readPointer env s.masks x x.Addr with
    | .error e => (s, x, .error e)
    | .ok (ptrval, masks1) =>
      match findObject env { s with masks := masks1 } ptrval (resolveTypedef hmap) with
      | (s1, none) => (s1, x, .ok ())
      | (s1, some y) =>
        match toMapIterator env s1 y keyT elemT with
        | (s2, .error e) => (s2, x, .error e)
        | (s2, .ok it) =>
          match findRefMapLoop env cfg fuel s2 it idx with
          | (s3, it1) =>
            match mapIterReferenceInfo it1 with
            | (objects, size, count) =>
              let s4 := findRefMapResiduals s3 idx objects
              (s4, { x with size := x.size + size, count := x.count + count }, .ok ())
  | .stringT _ _ =>
    match readStringInfo env s.masks x with
    | .error e => (s, x, .error e)
    | .ok (strAddr, strLen, masks1) =>
      match findObject env { s with masks := masks1 } strAddr (fakeArrayType strLen byteType) with
      | (s1, none) => (s1, x, .ok ())
      | (s1, some y) =>
        match findRef env cfg fuel s1 y idx with
        | (s2, y1, _) => (s2, { x with size := x.size + y1.size, count := x.count + y1.count }, .ok ())
  | .sliceT _ fields elem =>
    match findRefSliceFields env x s.masks 0 0 fields with
    | .error e => (s, x, .error e)
    | .ok (base, capV, masks1) =>
      match findObject env { s with masks := masks1 } base (fakeArrayType capV elem) with
      | (s1, none) => (s1, x, .ok ())
      | (s1, some y) =>
        match findRef env cfg fuel s1 y idx with
        | (s2, y1, _) => (s2, { x with size := x.size + y1.size, count := x.count + y1.count }, .ok ())
  | .ifaceT _ _ =>
    match readInterface env x with
    | (_, none) => (s, x, .ok ())
    | (tyAddr, some data) =>
      match readPointer env s.masks data data.Addr with
      | .error e => (s, x, .error e)
      | .ok (ptrval, masks1) =>
        if ptrval = 0 then ({ s with masks := masks1 }, x, .ok ())
        else
          let s1 := { s with masks := masks1 }
          let rt :=
            match tyAddr with
            | some ta =>
              match env.runtimeTypeToDIE ta data.Addr with
              | .ok (rtyp, kind) =>
                let rtyp1 :=
                  if kind &&& kindDirectIface = 0 then
                    match resolveTypedef rtyp with
                    | .ptr _ _ => rtyp
                    | _ => pointerTo rtyp
                  else rtyp
                let ityp :=
                  match resolveTypedef rtyp1 with
                  | .ptr _ ptee => some (resolveTypedef ptee)
                  | _ => none
                (ityp, Except.ok ())
              | .error e => (none, Except.error e)
            | none => (none, Except.ok ())
          match findObject env s1 ptrval ((rt.1).getD (.void { name := "", size := 0, align := 0 })) with
          | (s2, none) => (s2, x, rt.2)
          | (s2, some y) =>
            match findRef env cfg fuel s2 y idx with
            | (s3, y1, _) => (s3, { x with size := x.size + y1.size, count := x.count + y1.count }, rt.2)
  | .structT c sname fields =>
    match specialStructTypes (.structT c sname fields) with
    | .structT _ _ fields1 => findRefStructLoop env cfg fuel s x idx fields1 (.ok ())
    | _ => (s, x, .ok ())
  | .arrayT _ elem count =>
    let eType := resolveTypedef elem
    if !hasPtrType eType then (s, x, .ok ())
    else findRefArrayLoop env cfg fuel s x idx 0 count.toNat (.ok ())
  | .funcT _ =>
    match readPointer env s.masks x x.Addr with
    | .error e => (s, x, .error e)
    | .ok (closureAddr, masks1) =>
      let s1 := { s with masks := masks1 }
      if closureAddr = 0 then (s1, x, .ok ())
      else
        match readUintRaw env.mem closureAddr 8 with
        | .error e =>
          match findObject env s1 closureAddr (.void { name := "", size := 0, align := 0 }) with
          | (s2, none) => (s2, x, .error e)
          | (s2, some closure) =>
            match findRef env cfg fuel s2 closure idx with
            | (s3, c1, _) => (s3, { x with size := x.size + c1.size, count := x.count + c1.count }, .error e)
        | .ok funcAddr =>
          let cst :=
            if funcAddr ≠ 0 then
              match env.pcToFunc funcAddr with
              | some fn => env.closureType fn
              | none => none
            else none
          match findObject env s1 closureAddr (cst.getD (.void { name := "", size := 0, align := 0 })) with
          | (s2, none) => (s2, x, .ok ())
          | (s2, some closure) =>
            match findRef env cfg fuel s2 closure idx with
            | (s3, c1, _) => (s3, { x with size := x.size + c1.size, count := x.count + c1.count }, .ok ())
  | .finalizePtrT =>
    match findObject env s x.Addr (.void { name := "", size := 0, align := 0 }) with
    | (s1, none) => (s1, x, .ok ())
    | (s1, some y) =>
      match findRef env cfg fuel s1 y idx with
      | (s2, y1, _) => (s2, { x with size := x.size + y1.size, count := x.count + y1.count }, .ok ())
  | _ => (s, x, .ok ())

/-- The struct-field loop of findRef: each field is projected with toField
and walked; a sub-call failing with errOutOfRange breaks off the whole
remainder of the field list.  The running `err` is the source's named
return. -/
def findRefStructLoop (env : Env) (cfg : RefConfig) :
    Nat → HeapScope → ReferenceVariable → Option pprofIndex → List StructField →
    Except GError Unit → HeapScope × ReferenceVariable × Except GError Unit
  | 0, s, x, _, _, err => (s, x, err)
  | _ + 1, s, x, _, [], err => (s, x, err)
  | fuel + 1, s, x, idx, f :: rest, _ =>
    match findRef env cfg fuel s (toField x f) idx with
    | (s1, _, err1) =>
      if isErrOutOfRange err1 then (s1, x, err1)
      else findRefStructLoop env cfg fuel s1 x idx rest err1

/-- The array-element loop of findRef: elements are projected with
arrayAccess (the `[i]`/`[10+]` naming) and walked; errOutOfRange breaks off
the remaining elements. -/
def findRefArrayLoop (env : Env) (cfg : RefConfig) :
    Nat → HeapScope → ReferenceVariable → Option pprofIndex → Nat → Nat →
    Except GError Unit → HeapScope × ReferenceVariable × Except GError Unit
  | 0, s, x, _, _, _, err => (s, x, err)
  | _ + 1, s, x, _, _, 0, err => (s, x, err)
  | fuel + 1, s, x, idx, i, remaining + 1, _ =>
    match arrayAccess x (i : Int) with
    | none => (s, x, .ok ())
    | some y =>
      match findRef env cfg fuel s y idx with
      | (s1, _, err1) =>
        if isErrOutOfRange err1 then (s1, x, err1)
        else findRefArrayLoop env cfg fuel s1 x idx (i + 1) remaining err1

/-- The `for it.next(s)` loop of findRef's map case: every yielded key and
value is renamed `$mapkey. (T)` / `$mapval. (T)` and walked; an
errOutOfRange on the key skips that entry's value. -/
def findRefMapLoop (env : Env) (cfg : RefConfig) :
    Nat → HeapScope → mapIterator → Option pprofIndex → HeapScope × mapIterator
  | 0, s, it, _ => (s, it)
  | fuel + 1, s, it, idx =>
    match mapIterNext env (fuel + 1) s it with
    | (s1, it1, false) => (s1, it1)
    | (s1, it1, true) =>
      let afterKey :=
        match mapIterKey it1 with
        | some key =>
          let key1 := { key with Name := "$mapkey. (" ++ key.RealType.str ++ ")" }
          match findRef env cfg fuel s1 key1 idx with
          | (s2, _, err) => (s2, isErrOutOfRange err)
        | none => (s1, false)
      match afterKey with
      | (s2, true) => findRefMapLoop env cfg fuel s2 it1 idx
      | (s2, false) =>
        let afterVal :=
          match mapIterValue it1 with
          | some val =>
            let val1 := { val with Name := "$mapval. (" ++ val.RealType.str ++ ")" }
            match findRef env cfg fuel s2 val1 idx with
            | (s3, _, _) => s3
          | none => s2
        findRefMapLoop env cfg fuel afterVal it1 idx
end

/-- A degenerate external world: unreadable memory and empty oracles (used
by concrete witness scenarios). -/
def envEmpty : Env :=
  { mem := fun _ => none, producerGe112 := false,
    runtimeTypeToDIE := fun _ _ => .error .misc, pcToFunc := fun _ => none,
    closureType := fun _ => none }

/-- Memory of the anonymous-object scenario: one readable 8-byte word at
address 4096 holding the pointer value 8192 (bytes little-endian). -/
def c2Mem : Mem := fun a =>
  if a = 4097 then some 32 else if 4096 ≤ a ∧ a < 4104 then some 0 else none

/-- The anonymous-object scenario's world. -/
def c2Env : Env := { envEmpty with mem := c2Mem }

/-- A godwarf VoidType value. -/
def voidT : GoType := .void { name := "void", size := 0, align := 0 }

/-- The anonymous-object scenario's span: one in-use span at 8192 of element
size 16 with a single pointer bit at its base. -/
def c2Span : spanInfo :=
  { base := 8192, elemSize := 16, spanSize := 8192, visitMask := List.replicate 16 0,
    ptrMask := 0, spanclass := 2, largeTypeAddr := 0 }

/-- The anonymous-object scenario's heap scope: the arena index maps page 1
(address 8192) to the span; the span's ptrMask is mask 0 of the store. -/
def c2Heap : HeapScope :=
  { pageSize := 8192, heapArenaBytes := 8192, pagesPerArena := 1, arenaL1Bits := 0,
    arenaL2Bits := 1, arenaBaseOffset := 0, enableAllocHeader := false,
    minSizeForMallocHeader := 16, data := [], bss := [], g := none,
    arenaInfo := [some [none, some [some 0]]], spans := [c2Span],
    masks := [1 :: List.replicate 15 0], finalMarks := [], pb := newProfileBuilder }

/-- The scenario's root: a named pointer variable at 4096 whose pointee (a
heap object at 8192) has no DWARF structure to consume its pointer bit. -/
def c2Root : ReferenceVariable :=
  newReferenceVariable 4096 "root" (.ptr { name := "*void", size := 8, align := 8 } voidT) none

/-- A pointer-to-void godwarf type (8 bytes on the supported targets). -/
def c7PtrVoid : GoType := .ptr { name := "*void", size := 8, align := 8 } voidT

/-- An out-of-window pointer field: offset 32 puts its address past the
16-byte heap-bits window of the enclosing object. -/
def fC7 : StructField := .mk "p" 32 c7PtrVoid

/-- A later field of the same struct, never reached once the walk of fC7
short-circuits the loop. -/
def gC7 : StructField := .mk "q" 40 c7PtrVoid

/-- A struct variable whose heap-bits window is the 16-byte span element at
8192, so both pointer fields lie outside the window. -/
def xC7 : ReferenceVariable :=
  newReferenceVariable 8192 "x"
    (.structT { name := "main.S", size := 16, align := 8 } "main.S" [fC7, gC7])
    (some { base := 8192, endA := 8208, maskBase := 8192, mask := 0, addr := 8192 })

/-- A `[5]*void` array variable at 8224 sharing the same window: every
element address escapes it. -/
def aC7 : ReferenceVariable :=
  newReferenceVariable 8224 "a"
    (.arrayT { name := "[5]*void", size := 40, align := 8 } c7PtrVoid 5)
    (some { base := 8192, endA := 8208, maskBase := 8192, mask := 0, addr := 8192 })

/-- Element 0 of aC7, as arrayAccess projects it. -/
def c7Elem0 : ReferenceVariable :=
  newReferenceVariable 8224 "[0]. (*void)" c7PtrVoid
    (some { base := 8192, endA := 8208, maskBase := 8192, mask := 0, addr := 8192 })

/-- The walk of the out-of-window struct field (its readPointer fails with
errOutOfRange). -/
def c7StructRun : HeapScope × ReferenceVariable × Except GError Unit :=
  findRef envEmpty defaultRefConfig 2 c2Heap (toField xC7 fC7) none

/-- The walk of element 0 of the array (same failure). -/
def c7ArrayRun : HeapScope × ReferenceVariable × Except GError Unit :=
  findRef envEmpty defaultRefConfig 2 c2Heap c7Elem0 none

/-- findObject on the anonymous-scenario pointee, as findRef's pointer case
reaches it. -/
def c7FO : HeapScope × Option ReferenceVariable := findObject c2Env c2Heap 8192 voidT

/-- The recursive walk of that pointee. -/
def c7FR : HeapScope × ReferenceVariable × Except GError Unit :=
  findRef c2Env defaultRefConfig 2 c7FO.1 (c7FO.2.getD (newReferenceVariable 0 "" voidT none)) none

/-- Zero-valued profile node (the Go zero value a map read yields for an
absent key). -/
def zeroNode : profileNode := { count := 0, size := 0 }

/-- Association-list lookup in the nodes accumulator (Go's `b.nodes[key]`
map read). -/
def nodesLookup : List (List Nat × profileNode) → List Nat → Option profileNode
  | [], _ => none
  | (k1, n1) :: rest, k => if k1 = k then some n1 else nodesLookup rest k

/-- The count accumulated so far for serialized chain key `k`. -/
def nodeCount (pb : profileBuilder) (k : List Nat) : Int :=
  ((nodesLookup pb.nodes k).getD zeroNode).count

/-- The bytes accumulated so far for serialized chain key `k`. -/
def nodeSize (pb : profileBuilder) (k : List Nat) : Int :=
  ((nodesLookup pb.nodes k).getD zeroNode).size

/-- A sequence of addReference calls (chain indexes, count delta, bytes
delta), applied left to right as record issues them during a walk. -/
def applyCalls (pb : profileBuilder) : List (List Nat × Int × Int) → profileBuilder
  | [] => pb
  | (ix, count, bytes) :: rest => applyCalls (addReference pb ix count bytes) rest

/-- Sum of the count deltas of the calls whose serialized key is `k`. -/
def callCountSum (k : List Nat) : List (List Nat × Int × Int) → Int
  | [] => 0
  | (ix, c, _) :: rest => (if uint64s2str ix = k then c else 0) + callCountSum k rest

/-- Sum of the bytes deltas of the calls whose serialized key is `k`. -/
def callByteSum (k : List Nat) : List (List Nat × Int × Int) → Int
  | [] => 0
  | (ix, _, b) :: rest => (if uint64s2str ix = k then b else 0) + callByteSum k rest

/-- The sentinel stamping at the end of toMapIterator's classic branch:
Go 1.12+ producers get emptyOne=1/minTopHash=5, older ones 0/4. -/
def classicStampSentinels (ge112 : Bool) (it : mapIteratorClassic) : mapIteratorClassic :=
  if ge112 then { it with hashTophashEmptyOne := hashTophashEmptyOne, hashMinTopHash := hashMinTopHashGo112 }
  else { it with hashTophashEmptyOne := hashTophashEmptyZero, hashMinTopHash := hashMinTopHashGo111 }

/-- The classic-map scenario's world: a Go 1.12+ producer with one
readable tophash byte 7 at 4096 and one readable byte 3 at 4100. -/
def c6Env : Env :=
  { envEmpty with mem := fun a => if a = 4096 then some 7 else if a = 4100 then some 3 else none, producerGe112 := true }

/-- The scenario's tophash array variable (8 one-byte cells at 4096). -/
def c6Tophashes : ReferenceVariable :=
  newReferenceVariable 4096 "tophash" (.arrayT { name := "[8]uint8", size := 8, align := 1 } byteType 8) none

/-- A classic iterator positioned on a bucket with the scenario's tophash
array and the Go 1.12+ sentinels. -/
def c6It : mapIteratorClassic :=
  { numbuckets := 1, oldmask := 0, buckets := none, oldbuckets := none,
    b := some (newReferenceVariable 4096 "" voidT none), bidx := 0,
    keyTypeIsPtr := false, elemTypeIsPtr := false, tophashes := some c6Tophashes,
    keys := none, values := none, overflow := none, maxNumBuckets := 0, idx := 0,
    hashTophashEmptyOne := 1, hashMinTopHash := 5, objects := [], size := 0, count := 0 }

/-- An old bucket whose tophash byte 3 lies strictly between emptyOne and
minTopHash. -/
def c6Bucket : ReferenceVariable :=
  newReferenceVariable 4100 ""
    (.structT { name := "bmap", size := 8, align := 8 } "bmap" [.mk "tophash" 0 voidT]) none

/-- An old bucket at an unreadable address. -/
def c6BucketBad : ReferenceVariable :=
  newReferenceVariable 5000 ""
    (.structT { name := "bmap", size := 8, align := 8 } "bmap" [.mk "tophash" 0 voidT]) none

/-- An hmap struct variable with no DWARF fields (classic dialect). -/
def c6Hmap : ReferenceVariable :=
  newReferenceVariable 4096 "hmap" (.structT { name := "hmap", size := 48, align := 8 } "hmap" []) none

/-- Bit `k` of a []uint64 gc mask: word k/64, bit k%64 (as heap.go's
copyGCMask writes it and the gcmask.go iterator scans it). -/
def maskBit (m : List Nat) (k : Nat) : Bool := (m.getD (k / 64) 0).testBit (k % 64)

/-- Repeatedly call nextPtr(true), collecting the returned addresses until
the not-found value 0 (fuel bounds the number of calls). -/
def drainNextPtr (store : MaskStore) : Nat → Option gcMaskBitIterator → List Address
  | 0, _ => []
  | fuel + 1, b =>
    match nextPtr store b true with
    | (a, b1) => if a = 0 then [] else a :: drainNextPtr store fuel b1

/-- A concrete call sequence: two chains, the first hit twice. -/
def c9Calls : List (List Nat × Int × Int) := [([1, 2], 1, 16), ([3], 2, 8), ([1, 2], 4, 32)]

/-- The same calls in a different order. -/
def c9Calls2 : List (List Nat × Int × Int) := [([1, 2], 4, 32), ([3], 2, 8), ([1, 2], 1, 16)]

theorem readUintRaw_error_eq (mem : Mem) (a n : Nat) (e : GError)
    (h : readUintRaw mem a n = .error e) : e = .readFail := by
  unfold readUintRaw at h
  cases hb : readBytes mem a n <;> rw [hb] at h <;> simp at h
  exact h.symm

theorem address_sub_small (a b : Nat) (hle : b ≤ a) (ha : a < two63) :
    Address.sub a b = ((a - b : Nat) : Int) := by
  unfold Address.sub wrap64 toInt64 two63 two64 at *
  split_ifs <;> norm_num at * <;> omega

theorem tdiv_coe8 (m : Nat) : Int.tdiv (m : Int) 8 = ((m / 8 : Nat) : Int) := rfl

theorem tdiv_coe64 (m : Nat) : Int.tdiv (m : Int) 64 = ((m / 64 : Nat) : Int) := rfl

theorem tmod_coe64 (m : Nat) : Int.tmod (m : Int) 64 = ((m % 64 : Nat) : Int) := rfl

theorem and_shift_ne_zero (w b : Nat) : (w &&& (1 <<< b) ≠ 0) ↔ w.testBit b = true := by
  rw [Nat.one_shiftLeft, Nat.and_two_pow]
  cases h : w.testBit b <;> simp [h]

theorem spanInfo_mark_eval (sp : spanInfo) (a : Address) (hbase : sp.base ≤ a) (ha : a < two63) :
    spanInfo.mark sp a =
      (if (sp.visitMask.getD ((a - sp.base) / 8 / 64) 0).testBit ((a - sp.base) / 8 % 64) then
        (false, sp)
      else (true, { sp with visitMask := sp.visitMask.set ((a - sp.base) / 8 / 64) (sp.visitMask.getD ((a - sp.base) / 8 / 64) 0 ||| 1 <<< ((a - sp.base) / 8 % 64)) })) := by
  simp only [spanInfo.mark]
  rw [address_sub_small a sp.base hbase ha, tdiv_coe8, tdiv_coe64, tmod_coe64]
  simp only [Int.toNat_natCast]
  by_cases h : (sp.visitMask.getD ((a - sp.base) / 8 / 64) 0).testBit ((a - sp.base) / 8 % 64)
  · rw [if_pos ((and_shift_ne_zero _ _).mpr h), if_pos h]
  · rw [if_neg (fun hc => h ((and_shift_ne_zero _ _).mp hc)), if_neg h]

theorem getD_set_self (l : List Nat) (n v : Nat) (h : n < l.length) :
    (l.set n v).getD n 0 = v := by
  simp [List.getD_eq_getElem?_getD, List.getElem?_set_self, h]

theorem getD_set_ne (l : List Nat) (n j v : Nat) (h : n ≠ j) :
    (l.set n v).getD j 0 = l.getD j 0 := by
  simp [List.getD_eq_getElem?_getD, List.getElem?_set_ne h]

theorem testBit_or_shift_self (w b : Nat) : (w ||| 1 <<< b).testBit b = true := by
  rw [Nat.one_shiftLeft]
  simp [Nat.testBit_or, Nat.testBit_two_pow]

theorem testBit_or_mono (w b : Nat) (i : Nat) (h : w.testBit i = true) :
    (w ||| 1 <<< b).testBit i = true := by
  simp [Nat.testBit_or, h]

/-- Claim C1 (code bug): on the repository's own TestHeapBits input — the
iterator `newGCBitsIterator(0, 1024, 0, make([]uint64, 2))` with pointer
bits inserted at offsets 16, 72, 208, 504, 928 — `resetGCMask(16)` succeeds
but leaves the mask unchanged (the `+1` word index in gcmask.go clears bit
2 of word 1 instead of word 0), so the following `nextPtr(false)` still
returns 16 where the test demands 72; addresses outside `[base, end)` do
return the OutOfRange error.  The claim correctly describes the intended
behavior (clear the bit at word index offset/8/64); the code is the slip. -/
theorem c1_resetGCMask_clears_wrong_word :
    (nextPtr [[2 ^ 2 + 2 ^ 9 + 2 ^ 26 + 2 ^ 63, 2 ^ 52]] (some (newGCBitsIterator 0 1024 0 0)) false).1 = 16 ∧
    resetGCMask [[2 ^ 2 + 2 ^ 9 + 2 ^ 26 + 2 ^ 63, 2 ^ 52]] (some (newGCBitsIterator 0 1024 0 0)) 16
      = .ok [[2 ^ 2 + 2 ^ 9 + 2 ^ 26 + 2 ^ 63, 2 ^ 52]] ∧
    (nextPtr [[2 ^ 2 + 2 ^ 9 + 2 ^ 26 + 2 ^ 63, 2 ^ 52]] (some (newGCBitsIterator 0 1024 0 0)) false).1 ≠ 72 ∧
    resetGCMask [[2 ^ 2 + 2 ^ 9 + 2 ^ 26 + 2 ^ 63, 2 ^ 52]] (some (newGCBitsIterator 0 1024 0 0)) 1024
      = .error .outOfRange := by
  refine ⟨by decide, by rfl, by decide, by rfl⟩

/-- Claim C2 (code bug): walking a named pointer root whose pointee is an
anonymous heap object with an unconsumed pointer bit, findRef emits no
sample for the object itself and folds its size and count into the parent
(the only emitted node is the parent's, with the object's 16 bytes and
count 1), but the residual bits are queued under the parent chain itself —
`[5]` is just "root" — with no `$sub_objects$` node appended, and the
string `$sub_objects$` (which docs/principle.md documents as the output
name for sub-objects without DWARF type info) never enters the string
table. -/
theorem c2_anonymous_residual_queued_without_sub_objects :
    (findRef c2Env defaultRefConfig 3 c2Heap c2Root none).1.pb.strings
      = ["", "inuse_objects", "count", "inuse_space", "bytes", "root"] ∧
    "$sub_objects$" ∉ (findRef c2Env defaultRefConfig 3 c2Heap c2Root none).1.pb.strings ∧
    (findRef c2Env defaultRefConfig 3 c2Heap c2Root none).1.pb.nodes
      = [(uint64s2str [5], { count := 1, size := 16 })] ∧
    (findRef c2Env defaultRefConfig 3 c2Heap c2Root none).1.finalMarks
      = [{ idx := some (.node 5 none 0), hb := some { base := 8192, endA := 8208, maskBase := 8192, mask := 0, addr := 8192 } }] ∧
    (findRef c2Env defaultRefConfig 3 c2Heap c2Root none).2.1.size = 16 ∧
    (findRef c2Env defaultRefConfig 3 c2Heap c2Root none).2.1.count = 1 := by
  refine ⟨by rfl, by decide, by decide, by rfl, by rfl, by rfl⟩

/-- Claim C4: visit marking is idempotent and monotonic — for an address at
an in-bounds word of a span's visitMask whose bit is clear, the first mark
returns true, a second mark of the same base returns false, and no mark
call ever clears a set visitMask bit (so an object is walked at most once
and cyclic object graphs terminate). -/
theorem c4_visit_mark_idempotent_monotone (sp : spanInfo) (a : Address)
    (hbase : sp.base ≤ a) (ha : a < two63)
    (hlen : (a - sp.base) / 8 / 64 < sp.visitMask.length)
    (hclear : (sp.visitMask.getD ((a - sp.base) / 8 / 64) 0).testBit ((a - sp.base) / 8 % 64) = false) :
    (spanInfo.mark sp a).1 = true ∧
    (spanInfo.mark ((spanInfo.mark sp a).2) a).1 = false ∧
    (∀ (sp2 : spanInfo) (b : Address) (j i : Nat),
      (sp2.visitMask.getD j 0).testBit i = true →
      (((spanInfo.mark sp2 b).2).visitMask.getD j 0).testBit i = true) := by
  have hev := spanInfo_mark_eval sp a hbase ha
  rw [if_neg (by rw [hclear]; simp)] at hev
  refine ⟨by rw [hev], ?_, ?_⟩
  · rw [hev]
    have hev2 := spanInfo_mark_eval { sp with visitMask := sp.visitMask.set ((a - sp.base) / 8 / 64) (sp.visitMask.getD ((a - sp.base) / 8 / 64) 0 ||| 1 <<< ((a - sp.base) / 8 % 64)) } a hbase ha
    simp only at hev2
    rw [hev2, if_pos]
    rw [getD_set_self _ _ _ hlen]
    exact testBit_or_shift_self _ _
  · intro sp2 b j i h
    unfold spanInfo.mark
    by_cases hc : sp2.visitMask.getD ((Int.tdiv (Int.tdiv (Address.sub b sp2.base) 8) 64).toNat) 0 &&& 1 <<< ((Int.tmod (Int.tdiv (Address.sub b sp2.base) 8) 64).toNat) ≠ 0
    · simp only [if_pos hc]
      exact h
    · simp only [if_neg hc]
      by_cases hj : (Int.tdiv (Int.tdiv (Address.sub b sp2.base) 8) 64).toNat = j
      · subst hj
        by_cases hlen2 : (Int.tdiv (Int.tdiv (Address.sub b sp2.base) 8) 64).toNat < sp2.visitMask.length
        · rw [getD_set_self _ _ _ hlen2]
          exact testBit_or_mono _ _ _ h
        · rw [List.set_eq_of_length_le (Nat.le_of_not_lt hlen2)]
          exact h
      · rw [getD_set_ne _ _ _ _ hj]
        exact h

/-- Witness for C4 at the scenario span (base 8192, 16 mask words, all
clear) and address 8200. -/
theorem c4_witness :
    (spanInfo.mark c2Span 8200).1 = true ∧
    (spanInfo.mark ((spanInfo.mark c2Span 8200).2) 8200).1 = false ∧
    (∀ (sp2 : spanInfo) (b : Address) (j i : Nat),
      (sp2.visitMask.getD j 0).testBit i = true →
      (((spanInfo.mark sp2 b).2).visitMask.getD j 0).testBit i = true) :=
  c4_visit_mark_idempotent_monotone c2Span 8200 (by decide) (by decide) (by decide) (by decide)

/-- Claim C5: findRef refuses to descend past the configured maximum
reference depth — a named variable whose chain depth has reached
cfg.maxRefDepth returns immediately with the whole scope state (profile,
final-mark queue and ptrMask store) unchanged, so its pointer bits remain
for the final-mark pass; the default depth is 256 and the CLI's
SetMaxRefDepth (modelled from the spec, see its definition) overwrites
it. -/
theorem c5_findRef_depth_guard (env : Env) (cfg : RefConfig) (x : ReferenceVariable)
    (p : pprofIndex) (hname : x.Name ≠ "") (hdepth : cfg.maxRefDepth ≤ p.depthOf) :
    (∀ (fuel : Nat) (s : HeapScope), findRef env cfg fuel s x (some p) = (s, x, .ok ())) ∧
    defaultRefConfig.maxRefDepth = 256 ∧
    (∀ (cfg2 : RefConfig) (d : Nat), (SetMaxRefDepth cfg2 d).maxRefDepth = d) := by
  refine ⟨fun fuel s => ?_, rfl, fun cfg2 d => rfl⟩
  cases fuel with
  | zero => rfl
  | succ n => simp [findRef, hname, hdepth]

/-- Witness for C5: a named root at depth 256 under the default
configuration is not descended into. -/
theorem c5_witness :
    (∀ (fuel : Nat) (s : HeapScope),
      findRef c2Env defaultRefConfig fuel s c2Root (some (.node 9 none 256)) = (s, c2Root, .ok ())) ∧
    defaultRefConfig.maxRefDepth = 256 ∧
    (∀ (cfg2 : RefConfig) (d : Nat), (SetMaxRefDepth cfg2 d).maxRefDepth = d) :=
  c5_findRef_depth_guard c2Env defaultRefConfig c2Root (.node 9 none 256) (by decide) (by decide)

/-- Claim C8 (counterexample): Address.Sub is not saturating — `Sub 0 1`
is -1, strictly below zero instead of the saturated 0 — and Address.Add
does not detect overflow: adding 8 to the maximal address silently wraps
to 7. -/
theorem c8_not_saturating_counterexample :
    Address.sub 0 1 = -1 ∧ Address.sub 0 1 < 0 ∧ Address.add (two64 - 1) 8 = 7 := by
  refine ⟨by decide, by decide, by decide⟩

/-- Claim C8 (amended): Address.Sub returns the two's-complement int64
reinterpretation of the wrapped uint64 difference — the exact signed
difference within int64 range, negative (not saturated) when b exceeds a —
and Address.Add wraps modulo 2^64 with no overflow check. -/
theorem c8_address_arithmetic_wraps (a b : Nat) (x : Int) (ha : a < two64) (hb : b < two64) :
    ((b ≤ a → (a : Int) - b < (two63 : Nat) → Address.sub a b = (a : Int) - b) ∧
     (a < b → (b : Int) - a ≤ (two63 : Nat) → Address.sub a b = -((b : Int) - a))) ∧
    Address.add a x = (((a : Int) + x) % ((two64 : Nat) : Int)).toNat := by
  unfold two64 two63 at *
  refine ⟨⟨fun h1 h2 => ?_, fun h1 h2 => ?_⟩, ?_⟩
  · unfold Address.sub wrap64 toInt64 two64 two63
    split_ifs <;> norm_num at * <;> omega
  · unfold Address.sub wrap64 toInt64 two64 two63
    split_ifs <;> norm_num at * <;> omega
  · unfold Address.add wrap64 two64
    norm_num

/-- Witness for the amended C8 at a = 5, b = 3, x = -1. -/
theorem c8_witness :
    ((3 ≤ 5 → (5 : Int) - 3 < (two63 : Nat) → Address.sub 5 3 = (5 : Int) - 3) ∧
     (5 < 3 → (3 : Int) - 5 ≤ (two63 : Nat) → Address.sub 5 3 = -((3 : Int) - 5))) ∧
    Address.add 5 (-1) = (((5 : Int) + (-1)) % ((two64 : Nat) : Int)).toNat :=
  c8_address_arithmetic_wraps 5 3 (-1) (by decide) (by decide)

/-- Claim C10: every heap-bits operation is total on a nil iterator —
nextPtr returns 0 without a new state, resetGCMask succeeds leaving the
store unchanged, readPointer on a variable without a heap-bits window can
never fail with OutOfRange (it reduces to the raw memory read), and
readUint64 performs no range check there; only variables tied to a span
window can observe the OutOfRange error. -/
theorem c10_nil_heapbits_total :
    (∀ (store : MaskStore) (ack : Bool), nextPtr store none ack = (0, none)) ∧
    (∀ (store : MaskStore) (addr : Address), resetGCMask store none addr = .ok store) ∧
    (∀ (env : Env) (masks : MaskStore) (addr : Address) (name : String) (typ : GoType) (a : Address),
      readPointer env masks (newReferenceVariable addr name typ none) a ≠ .error .outOfRange ∧
      readPointer env masks (newReferenceVariable addr name typ none) a =
        (match readUintRaw env.mem a 8 with
         | .ok n => .ok (n, masks)
         | .error e => .error e)) ∧
    (∀ (env : Env) (addr : Address) (name : String) (typ : GoType) (a : Address),
      readUint64 env (newReferenceVariable addr name typ none) a = readUintRaw env.mem a 8) := by
  refine ⟨fun store ack => rfl, fun store addr => rfl,
    fun env masks addr name typ a => ⟨?_, ?_⟩, fun env addr name typ a => rfl⟩
  · unfold readPointer resetGCMask newReferenceVariable
    cases h : readUintRaw env.mem a 8 with
    | ok n => simp [h]
    | error e =>
      have he := readUintRaw_error_eq env.mem a 8 e h
      subst he
      simp [h]
  · unfold readPointer resetGCMask newReferenceVariable
    cases h : readUintRaw env.mem a 8 <;> simp [h]

set_option maxHeartbeats 1600000 in
/-- Claim C7: a recursive findRef call failing with the recoverable
OutOfRange error short-circuits the entire remainder of the enclosing
struct's field loop (and of the array-element loop) — no later field or
element of the same object is visited — and the error is not fatal: a
pointer dereference that hands its pointee to a recursive findRef discards
that call's error and returns ok, so the walk of other objects continues. -/
theorem c7_outOfRange_short_circuit_not_fatal
    (env : Env) (cfg : RefConfig) (fuel : Nat) (s : HeapScope)
    (x : ReferenceVariable) (idx : Option pprofIndex) :
    (∀ (f : StructField) (rest : List StructField) (e0 : Except GError Unit)
        (s1 : HeapScope) (y1 : ReferenceVariable),
      findRef env cfg fuel s (toField x f) idx = (s1, y1, .error .outOfRange) →
      findRefStructLoop env cfg (fuel + 1) s x idx (f :: rest) e0
        = (s1, x, .error .outOfRange)) ∧
    (∀ (i remaining : Nat) (e0 : Except GError Unit) (ya : ReferenceVariable)
        (s1 : HeapScope) (y1 : ReferenceVariable),
      arrayAccess x (i : Int) = some ya →
      findRef env cfg fuel s ya idx = (s1, y1, .error .outOfRange) →
      findRefArrayLoop env cfg (fuel + 1) s x idx i (remaining + 1) e0
        = (s1, x, .error .outOfRange)) ∧
    (∀ (xaddr : Address) (xname : String) (xhb : Option gcMaskBitIterator) (xsz xcnt : Int)
        (c : GoCommon) (elem : GoType) (ptrval : Nat) (masks1 : MaskStore)
        (s2 s3 : HeapScope) (y z1 : ReferenceVariable) (err : Except GError Unit),
      readPointer env s.masks ⟨xaddr, xname, .ptr c elem, xhb, xsz, xcnt⟩ xaddr = .ok (ptrval, masks1) →
      findObject env { s with masks := masks1 } ptrval (resolveTypedef elem) = (s2, some y) →
      findRef env cfg fuel s2 y idx = (s3, z1, err) →
      findRefBody env cfg (fuel + 1) s ⟨xaddr, xname, .ptr c elem, xhb, xsz, xcnt⟩ idx
        = (s3, ⟨xaddr, xname, .ptr c elem, xhb, xsz + z1.size, xcnt + z1.count⟩, .ok ())) := by
  refine ⟨?_, ?_, ?_⟩
  · intro f rest e0 s1 y1 h
    simp only [findRefStructLoop, h, isErrOutOfRange, if_true]
  · intro i remaining e0 ya s1 y1 ha h
    simp only [findRefArrayLoop, ha, h, isErrOutOfRange, if_true]
  · intro xaddr xname xhb xsz xcnt c elem ptrval masks1 s2 s3 y z1 err hrp hfo hfr
    show (match readPointer env s.masks (⟨xaddr, xname, .ptr c elem, xhb, xsz, xcnt⟩ : ReferenceVariable) xaddr with
      | .error e => (s, (⟨xaddr, xname, .ptr c elem, xhb, xsz, xcnt⟩ : ReferenceVariable), Except.error e)
      | .ok (ptrval, masks1) =>
        match findObject env { s with masks := masks1 } ptrval (resolveTypedef elem) with
        | (s1, none) => (s1, ⟨xaddr, xname, .ptr c elem, xhb, xsz, xcnt⟩, Except.ok ())
        | (s1, some y) =>
          match findRef env cfg fuel s1 y idx with
          | (s2, y1, _) => (s2, ⟨xaddr, xname, .ptr c elem, xhb, xsz + y1.size, xcnt + y1.count⟩, Except.ok ())) = _
    simp only [hrp, hfo, hfr]

/-- Witness for C7: the out-of-window struct field and array element of the
concrete scenario each fail with OutOfRange and short-circuit their loops
(the second field and remaining four elements are never visited), and the
pointer walk of the anonymous-scenario root swallows the recursive call's
error, returning ok. -/
theorem c7_witness :
    findRef envEmpty defaultRefConfig 2 c2Heap (toField xC7 fC7) none
      = (c7StructRun.1, c7StructRun.2.1, .error .outOfRange) ∧
    findRefStructLoop envEmpty defaultRefConfig 3 c2Heap xC7 none [fC7, gC7] (.ok ())
      = (c7StructRun.1, xC7, .error .outOfRange) ∧
    arrayAccess aC7 ((0 : Nat) : Int) = some c7Elem0 ∧
    findRef envEmpty defaultRefConfig 2 c2Heap c7Elem0 none
      = (c7ArrayRun.1, c7ArrayRun.2.1, .error .outOfRange) ∧
    findRefArrayLoop envEmpty defaultRefConfig 3 c2Heap aC7 none 0 5 (.ok ())
      = (c7ArrayRun.1, aC7, .error .outOfRange) ∧
    findRefBody c2Env defaultRefConfig 3 c2Heap c2Root none
      = (c7FR.1, { c2Root with size := c2Root.size + c7FR.2.1.size, count := c2Root.count + c7FR.2.1.count }, .ok ()) := by
  have h1 : findRef envEmpty defaultRefConfig 2 c2Heap (toField xC7 fC7) none
      = (c7StructRun.1, c7StructRun.2.1, .error .outOfRange) := by rfl
  have h2 : arrayAccess aC7 ((0 : Nat) : Int) = some c7Elem0 := by rfl
  have h3 : findRef envEmpty defaultRefConfig 2 c2Heap c7Elem0 none
      = (c7ArrayRun.1, c7ArrayRun.2.1, .error .outOfRange) := by rfl
  refine ⟨h1,
    (c7_outOfRange_short_circuit_not_fatal envEmpty defaultRefConfig 2 c2Heap xC7 none).1
      fC7 [gC7] (.ok ()) _ _ h1,
    h2, h3,
    (c7_outOfRange_short_circuit_not_fatal envEmpty defaultRefConfig 2 c2Heap aC7 none).2.1
      0 4 (.ok ()) c7Elem0 _ _ h2 h3,
    (c7_outOfRange_short_circuit_not_fatal c2Env defaultRefConfig 2 c2Heap c2Root none).2.2
      4096 "root" none 0 0 _ voidT 8192 c2Heap.masks c7FO.1 c7FR.1
      (c7FO.2.getD (newReferenceVariable 0 "" voidT none)) c7FR.2.1 c7FR.2.2
      rfl rfl rfl⟩

theorem nodesLookup_nodesAdd_self (nodes : List (List Nat × profileNode)) (k : List Nat)
    (c b : Int) :
    nodesLookup (nodesAdd nodes k c b) k
      = some { count := ((nodesLookup nodes k).getD zeroNode).count + c,
               size := ((nodesLookup nodes k).getD zeroNode).size + b } := by
  induction nodes with
  | nil => simp [nodesAdd, nodesLookup, zeroNode]
  | cons hd tl ih =>
    obtain ⟨k1, n1⟩ := hd
    by_cases h : k1 = k
    · subst h
      simp [nodesAdd, nodesLookup]
    · simp [nodesAdd, nodesLookup, h, ih]

theorem nodesLookup_nodesAdd_ne (nodes : List (List Nat × profileNode)) (k k1 : List Nat)
    (c b : Int) (h : k1 ≠ k) :
    nodesLookup (nodesAdd nodes k c b) k1 = nodesLookup nodes k1 := by
  induction nodes with
  | nil => simp [nodesAdd, nodesLookup, Ne.symm h]
  | cons hd tl ih =>
    obtain ⟨k2, n2⟩ := hd
    by_cases h2 : k2 = k
    · subst h2
      simp [nodesAdd, nodesLookup, Ne.symm h]
    · by_cases h3 : k2 = k1
      · subst h3
        simp [nodesAdd, nodesLookup, h2]
      · simp [nodesAdd, nodesLookup, h2, h3, ih]

theorem nodeCount_applyCalls (calls : List (List Nat × Int × Int)) :
    ∀ (pb : profileBuilder) (k : List Nat),
      nodeCount (applyCalls pb calls) k = nodeCount pb k + callCountSum k calls := by
  induction calls with
  | nil =>
    intro pb k
    simp [applyCalls, callCountSum]
  | cons hd tl ih =>
    intro pb k
    obtain ⟨ix, c, b⟩ := hd
    simp only [applyCalls, callCountSum]
    rw [ih]
    by_cases h : uint64s2str ix = k
    · rw [if_pos h]
      have : nodeCount (addReference pb ix c b) k = nodeCount pb k + c := by
        simp only [nodeCount, addReference, h, nodesLookup_nodesAdd_self, Option.getD_some]
      rw [this]
      ring
    · rw [if_neg h]
      have : nodeCount (addReference pb ix c b) k = nodeCount pb k := by
        simp only [nodeCount, addReference]
        rw [nodesLookup_nodesAdd_ne _ _ _ _ _ (Ne.symm h)]
      rw [this]
      ring

theorem nodeSize_applyCalls (calls : List (List Nat × Int × Int)) :
    ∀ (pb : profileBuilder) (k : List Nat),
      nodeSize (applyCalls pb calls) k = nodeSize pb k + callByteSum k calls := by
  induction calls with
  | nil =>
    intro pb k
    simp [applyCalls, callByteSum]
  | cons hd tl ih =>
    intro pb k
    obtain ⟨ix, c, b⟩ := hd
    simp only [applyCalls, callByteSum]
    rw [ih]
    by_cases h : uint64s2str ix = k
    · rw [if_pos h]
      have : nodeSize (addReference pb ix c b) k = nodeSize pb k + b := by
        simp only [nodeSize, addReference, h, nodesLookup_nodesAdd_self, Option.getD_some]
      rw [this]
      ring
    · rw [if_neg h]
      have : nodeSize (addReference pb ix c b) k = nodeSize pb k := by
        simp only [nodeSize, addReference]
        rw [nodesLookup_nodesAdd_ne _ _ _ _ _ (Ne.symm h)]
      rw [this]
      ring

theorem callCountSum_perm (k : List Nat) {l1 l2 : List (List Nat × Int × Int)}
    (h : List.Perm l1 l2) : callCountSum k l1 = callCountSum k l2 := by
  induction h with
  | nil => rfl
  | cons x _ ih =>
    obtain ⟨ix, c, b⟩ := x
    simp [callCountSum, ih]
  | swap x y l =>
    obtain ⟨ix, c, b⟩ := x
    obtain ⟨iy, cy, b2⟩ := y
    simp only [callCountSum]
    ring
  | trans _ _ ih1 ih2 => exact ih1.trans ih2

theorem callByteSum_perm (k : List Nat) {l1 l2 : List (List Nat × Int × Int)}
    (h : List.Perm l1 l2) : callByteSum k l1 = callByteSum k l2 := by
  induction h with
  | nil => rfl
  | cons x _ ih =>
    obtain ⟨ix, c, b⟩ := x
    simp [callByteSum, ih]
  | swap x y l =>
    obtain ⟨ix, c, b⟩ := x
    obtain ⟨iy, cy, b2⟩ := y
    simp only [callByteSum]
    ring
  | trans _ _ ih1 ih2 => exact ih1.trans ih2

theorem nodesAdd_keys (nodes : List (List Nat × profileNode)) (k : List Nat) (c b : Int) :
    (nodesAdd nodes k c b).map Prod.fst
      = if k ∈ nodes.map Prod.fst then nodes.map Prod.fst else nodes.map Prod.fst ++ [k] := by
  induction nodes with
  | nil => simp [nodesAdd]
  | cons hd tl ih =>
    obtain ⟨k1, n1⟩ := hd
    by_cases h : k1 = k
    · subst h
      simp [nodesAdd]
    · simp only [nodesAdd, if_neg h, List.map_cons]
      rw [ih]
      by_cases h2 : k ∈ tl.map Prod.fst
      · simp [h2, List.mem_cons, Ne.symm h]
      · simp [h2, List.mem_cons, Ne.symm h, List.cons_append]

theorem nodesAdd_keys_nodup (nodes : List (List Nat × profileNode)) (k : List Nat) (c b : Int)
    (h : (nodes.map Prod.fst).Nodup) : ((nodesAdd nodes k c b).map Prod.fst).Nodup := by
  rw [nodesAdd_keys]
  split_ifs with hk
  · exact h
  · simp [List.nodup_append, h, hk]

theorem applyCalls_keys_nodup (calls : List (List Nat × Int × Int)) :
    ∀ (pb : profileBuilder), (pb.nodes.map Prod.fst).Nodup →
      ((applyCalls pb calls).nodes.map Prod.fst).Nodup := by
  induction calls with
  | nil =>
    intro pb h
    simpa [applyCalls] using h
  | cons hd tl ih =>
    intro pb h
    obtain ⟨ix, c, b⟩ := hd
    exact ih _ (nodesAdd_keys_nodup pb.nodes (uint64s2str ix) c b h)

theorem flushReference_keys (pb : profileBuilder) :
    (flushReference pb).map (fun t => t.2.2) = pb.nodes.map Prod.fst := by
  simp only [flushReference, List.map_map]
  rfl

/-- Claim C9: sample aggregation per serialized reference chain is
commutative and additive — after any sequence of addReference calls, the
accumulated count and bytes of a chain key equal the starting value plus
the sums of that key's deltas; a permutation of the calls yields the same
accumulators; the accumulator keys stay distinct, and flushReference emits
exactly one sample per distinct chain key. -/
theorem c9_aggregation_commutative_additive
    (pb : profileBuilder) (calls calls2 : List (List Nat × Int × Int)) (k : List Nat)
    (hperm : List.Perm calls calls2) (hnd : (pb.nodes.map Prod.fst).Nodup) :
    nodeCount (applyCalls pb calls) k = nodeCount pb k + callCountSum k calls ∧
    nodeSize (applyCalls pb calls) k = nodeSize pb k + callByteSum k calls ∧
    nodeCount (applyCalls pb calls2) k = nodeCount (applyCalls pb calls) k ∧
    nodeSize (applyCalls pb calls2) k = nodeSize (applyCalls pb calls) k ∧
    ((applyCalls pb calls).nodes.map Prod.fst).Nodup ∧
    (flushReference (applyCalls pb calls)).map (fun t => t.2.2)
      = (applyCalls pb calls).nodes.map Prod.fst := by
  refine ⟨nodeCount_applyCalls calls pb k, nodeSize_applyCalls calls pb k, ?_, ?_,
    applyCalls_keys_nodup calls pb hnd, flushReference_keys _⟩
  · rw [nodeCount_applyCalls, nodeCount_applyCalls, callCountSum_perm k hperm]
  · rw [nodeSize_applyCalls, nodeSize_applyCalls, callByteSum_perm k hperm]

/-- Witness for C9 at the concrete permuted call pair: the twice-hit chain
key accumulates 1+4 objects and 16+32 bytes in either order, and the
accumulator keys stay distinct. -/
theorem c9_witness :
    List.Perm c9Calls c9Calls2 ∧
    (newProfileBuilder.nodes.map Prod.fst).Nodup ∧
    nodeCount (applyCalls newProfileBuilder c9Calls) (uint64s2str [1, 2])
      = nodeCount newProfileBuilder (uint64s2str [1, 2])
        + callCountSum (uint64s2str [1, 2]) c9Calls ∧
    nodeSize (applyCalls newProfileBuilder c9Calls) (uint64s2str [1, 2])
      = nodeSize newProfileBuilder (uint64s2str [1, 2])
        + callByteSum (uint64s2str [1, 2]) c9Calls ∧
    nodeCount (applyCalls newProfileBuilder c9Calls2) (uint64s2str [1, 2])
      = nodeCount (applyCalls newProfileBuilder c9Calls) (uint64s2str [1, 2]) ∧
    ((applyCalls newProfileBuilder c9Calls).nodes.map Prod.fst).Nodup := by
  have hperm : List.Perm c9Calls c9Calls2 := by decide
  have hnd : (newProfileBuilder.nodes.map Prod.fst).Nodup := by decide
  have h := c9_aggregation_commutative_additive newProfileBuilder c9Calls c9Calls2
    (uint64s2str [1, 2]) hperm hnd
  exact ⟨hperm, hnd, h.1, h.2.1, h.2.2.1, h.2.2.2.2.1⟩

theorem mapEvacuatedFields_skip (env : Env) (e1 mt : Nat) (baddr : Address)
    (l1 : List StructField) (f : StructField) (l2 : List StructField)
    (hskip : ∀ g ∈ l1, g.name ≠ "tophash") (hf : f.name = "tophash") :
    mapEvacuatedFields env e1 mt baddr (l1 ++ f :: l2)
      = (match readUintRaw env.mem (Address.add baddr f.off) 1 with
         | .error _ => true
         | .ok t0 => decide (e1 < t0 ∧ t0 < mt)) := by
  induction l1 with
  | nil =>
    simp only [List.nil_append, mapEvacuatedFields, hf]
    cases readUintRaw env.mem (Address.add baddr f.off) 1 <;> simp
  | cons g l ih =>
    have hg : g.name ≠ "tophash" := hskip g (by simp)
    simp only [List.cons_append, mapEvacuatedFields, hg, not_false_eq_true, if_true, ite_not]
    exact ih (fun q hq => hskip q (by simp [hq]))

/-- Claim C6: in the classic bucketed hmap iterator, a cell is yielded as
occupied iff its tophash byte differs from both of the version's empty
sentinels (the skip branch advances the cell index without yielding); an
old bucket counts as evacuated iff its first tophash byte lies strictly
between the emptyOne sentinel and minTopHash, with nil-address and
unreadable buckets treated as evacuated; and toMapIterator stamps the
Go 1.12+ sentinels (emptyOne=1, minTopHash=5) exactly for producers at or
above 1.12 (0 and 4 below). -/
theorem c6_classic_tophash_occupancy_evacuation
    (env : Env) (s : HeapScope) (fuel : Nat) (it : mapIteratorClassic) :
    (∀ (bv th : ReferenceVariable) (c : GoCommon) (telem : GoType) (tcount : Int) (h0 : Nat),
      it.b = some bv →
      it.tophashes = some th →
      th.RealType = .arrayT c telem tcount →
      it.idx < tcount →
      readUintRaw env.mem (Address.add th.Addr (telem.size * it.idx)) 1 = .ok h0 →
      classicNext env (fuel + 1) s it
        = if h0 ≠ hashTophashEmptyZero ∧ h0 ≠ it.hashTophashEmptyOne
          then (s, { it with idx := it.idx + 1 }, true)
          else classicNext env fuel s { it with idx := it.idx + 1 }) ∧
    (∀ b : ReferenceVariable, b.Addr = 0 → mapEvacuated env it b = true) ∧
    (∀ (b : ReferenceVariable) (c : GoCommon) (sn : String) (l1 l2 : List StructField) (f : StructField),
      b.Addr ≠ 0 →
      b.RealType = .structT c sn (l1 ++ f :: l2) →
      (∀ g ∈ l1, g.name ≠ "tophash") →
      f.name = "tophash" →
      ((∀ e, readUintRaw env.mem (Address.add b.Addr f.off) 1 = .error e → mapEvacuated env it b = true) ∧
       (∀ t0, readUintRaw env.mem (Address.add b.Addr f.off) 1 = .ok t0 →
         (mapEvacuated env it b = true ↔ (it.hashTophashEmptyOne < t0 ∧ t0 < it.hashMinTopHash))))) ∧
    (∀ (hmap : ReferenceVariable) (keyType elemType : GoType) (c : GoCommon) (sn : String)
        (fields : List StructField) (s1 : HeapScope) (it1 : mapIteratorClassic) (isw1 : mapIteratorSwiss),
      hmap.Addr ≠ 0 →
      hmap.RealType = .structT c sn fields →
      toMapIteratorFields env hmap s
          (mkClassicIterator (isPtrType keyType) (isPtrType elemType) hmap.size hmap.count)
          (mkSwissIterator (isPtrType keyType) (isPtrType elemType) hmap.size hmap.count) fields
        = (s1, it1, isw1, none) →
      it1.buckets = none → it1.oldbuckets = none → isw1.dirPtr = none →
      (toMapIterator env s hmap keyType elemType
          = (s1, .ok (.classic (classicStampSentinels env.producerGe112 it1))) ∧
       (classicStampSentinels env.producerGe112 it1).hashTophashEmptyOne
          = (if env.producerGe112 then hashTophashEmptyOne else hashTophashEmptyZero) ∧
       (classicStampSentinels env.producerGe112 it1).hashMinTopHash
          = (if env.producerGe112 then hashMinTopHashGo112 else hashMinTopHashGo111))) := by
  refine ⟨?_, ?_, ?_, ?_⟩
  · intro bv th c telem tcount h0 hb1 hth hty hidx hread
    simp only [classicNext, classicEnsureBucket1, classicEnsureBucket2, hb1, hth, hty,
      not_le.mpr hidx, if_false, hread]
  · intro b h
    simp [mapEvacuated, h]
  · intro b c sn l1 l2 f hb0 hty hskip hf
    have hev : mapEvacuated env it b
        = (match readUintRaw env.mem (Address.add b.Addr f.off) 1 with
           | .error _ => true
           | .ok t0 => decide (it.hashTophashEmptyOne < t0 ∧ t0 < it.hashMinTopHash)) := by
      simp only [mapEvacuated, hb0, if_false, hty]
      exact mapEvacuatedFields_skip env _ _ _ l1 f l2 hskip hf
    constructor
    · intro e herr
      rw [hev, herr]
    · intro t0 hok
      rw [hev, hok]
      simp
  · intro hmap keyType elemType c sn fields s1 it1 isw1 h0 hty htm hb ho hd
    refine ⟨?_, ?_, ?_⟩
    · simp only [toMapIterator, h0, if_false, hty, htm, hb, ho, hd, Option.isNone_none,
        Option.isSome_none, Bool.and_false, Bool.false_eq_true, if_false,
        classicStampSentinels]
      simp
    · cases hE : env.producerGe112 <;> simp [classicStampSentinels, hE]
    · cases hE : env.producerGe112 <;> simp [classicStampSentinels, hE]

/-- Witness for C6: the concrete scenario's occupied byte 7 yields true,
the nil, in-between (byte 3) and unreadable buckets evacuate as claimed,
and the 1.12+ iterator gets sentinels 1 and 5. -/
theorem c6_witness :
    classicNext c6Env 1 c2Heap c6It = (c2Heap, { c6It with idx := c6It.idx + 1 }, true) ∧
    mapEvacuated c6Env c6It (newReferenceVariable 0 "" voidT none) = true ∧
    (mapEvacuated c6Env c6It c6Bucket = true ↔ (c6It.hashTophashEmptyOne < 3 ∧ 3 < c6It.hashMinTopHash)) ∧
    mapEvacuated c6Env c6It c6BucketBad = true ∧
    toMapIterator c6Env c2Heap c6Hmap voidT voidT
      = (c2Heap, .ok (.classic (classicStampSentinels c6Env.producerGe112
          (mkClassicIterator (isPtrType voidT) (isPtrType voidT) c6Hmap.size c6Hmap.count)))) := by
  have h := c6_classic_tophash_occupancy_evacuation c6Env c2Heap 0 c6It
  refine ⟨?_, h.2.1 (newReferenceVariable 0 "" voidT none) rfl, ?_, ?_, ?_⟩
  · have h1 := h.1 (newReferenceVariable 4096 "" voidT none) c6Tophashes
      { name := "[8]uint8", size := 8, align := 1 } byteType 8 7 rfl rfl rfl (by decide) rfl
    rw [h1, if_pos (by decide)]
  · exact (h.2.2.1 c6Bucket { name := "bmap", size := 8, align := 8 } "bmap" [] []
      (.mk "tophash" 0 voidT) (by decide) rfl (by simp) rfl).2 3 rfl
  · exact (h.2.2.1 c6BucketBad { name := "bmap", size := 8, align := 8 } "bmap" [] []
      (.mk "tophash" 0 voidT) (by decide) rfl (by simp) rfl).1 .readFail rfl
  · exact (h.2.2.2 c6Hmap voidT voidT { name := "hmap", size := 48, align := 8 } "hmap" []
      c2Heap (mkClassicIterator (isPtrType voidT) (isPtrType voidT) c6Hmap.size c6Hmap.count)
      (mkSwissIterator (isPtrType voidT) (isPtrType voidT) c6Hmap.size c6Hmap.count)
      (by decide) rfl rfl rfl rfl rfl).1

theorem address_add_nat (a n : Nat) (h : a + n < two64) : Address.add a (n : Int) = a + n := by
  unfold Address.add wrap64
  rw [← Nat.cast_add]
  rw [Int.emod_eq_of_lt (by positivity) (by exact_mod_cast h)]
  exact Int.toNat_natCast _

theorem tz64Go_eq (fuel : Nat) : ∀ (m t : Nat), t < fuel → m.testBit t = true →
    (∀ s, s < t → m.testBit s = false) → tz64Go m fuel = t := by
  induction fuel with
  | zero => intro m t ht _ _; omega
  | succ f ih =>
    intro m t ht hbit hmin
    by_cases h0 : m % 2 = 1
    · have ht0 : m.testBit 0 = true := by simp [Nat.testBit_zero, h0]
      have hz : t = 0 := by
        by_contra hne
        have := hmin 0 (by omega)
        rw [ht0] at this
        exact Bool.noConfusion this
      subst hz
      simp [tz64Go, h0]
    · have ht0 : m.testBit 0 = false := by simp [Nat.testBit_zero, h0]
      match t, ht, hbit, hmin with
      | 0, _, hbit, _ =>
        rw [ht0] at hbit
        exact Bool.noConfusion hbit
      | t' + 1, ht, hbit, hmin =>
        have hb1 : (m / 2).testBit t' = true := by
          rw [← Nat.testBit_succ]
          exact hbit
        have hm1 : ∀ s, s < t' → (m / 2).testBit s = false := by
          intro s hs
          rw [← Nat.testBit_succ]
          exact hmin (s + 1) (by omega)
        simp only [tz64Go, h0, if_false]
        rw [ih (m / 2) t' (by omega) hb1 hm1]
        omega

theorem tz64Go_none (fuel : Nat) : ∀ (m : Nat), (∀ s, s < fuel → m.testBit s = false) →
    tz64Go m fuel = fuel := by
  induction fuel with
  | zero => intro m _; rfl
  | succ f ih =>
    intro m h
    have ht0 : m.testBit 0 = false := h 0 (by omega)
    have h0 : ¬ m % 2 = 1 := by
      intro hc
      rw [Nat.testBit_zero] at ht0
      simp [hc] at ht0
    simp only [tz64Go, h0, if_false]
    rw [ih (m / 2) (fun s hs => by rw [← Nat.testBit_succ]; exact h (s + 1) (by omega))]
    omega

theorem getD_lt_two64 (M : List Nat) (hw : ∀ w ∈ M, w < two64) (i : Nat) :
    M.getD i 0 < two64 := by
  by_cases h : M.length ≤ i
  · rw [List.getD_eq_default M 0 h]
    norm_num [two64]
  · push_neg at h
    rw [List.getD_eq_getElem?_getD, List.getElem?_eq_getElem h]
    exact hw _ (List.getElem_mem h)

theorem testBit_ge_64 (w : Nat) (hw : w < two64) (j : Nat) (hj : 64 ≤ j) :
    w.testBit j = false := by
  apply Nat.testBit_lt_two_pow
  calc w < 2 ^ 64 := hw
    _ ≤ 2 ^ j := Nat.pow_le_pow_right (by omega) hj

theorem nextPtrLoop_found (store : MaskStore) (b : gcMaskBitIterator) (endOffset k mB : Nat)
    (hw : ∀ w ∈ store.getD b.mask [], w < two64)
    (hmB : b.maskBase = mB)
    (hend : b.endA = mB + endOffset)
    (hnw : mB + endOffset < two64)
    (hbit : maskBit (store.getD b.mask []) k = true)
    (hke : 8 * k < endOffset) :
    ∀ (fuel so : Nat), 8 ∣ so → so / 8 ≤ k →
      (∀ t, so / 8 ≤ t → t < k → maskBit (store.getD b.mask []) t = false) →
      k / 64 < fuel + so / 512 →
      nextPtrLoop store b endOffset fuel so = some (mB + 8 * k) := by
  unfold maskBit at hbit
  intro fuel
  induction fuel with
  | zero =>
    intro so h8 hk _ hfuel
    exfalso
    omega
  | succ f ih =>
    intro so h8 hk hmin hfuel
    have hsoe : so < endOffset := by omega
    simp only [nextPtrLoop, readWord, hsoe, if_true]
    by_cases hcase : so / 8 / 64 = k / 64
    · have hi_le : so / 8 % 64 ≤ k % 64 := by omega
      have hj : tz64 ((store.getD b.mask []).getD (so / 8 / 64) 0 >>> (so / 8 % 64))
          = k % 64 - so / 8 % 64 := by
        unfold tz64
        apply tz64Go_eq
        · omega
        · rw [Nat.testBit_shiftRight]
          have he : so / 8 % 64 + (k % 64 - so / 8 % 64) = k % 64 := by omega
          rw [he, hcase]
          exact hbit
        · intro s hs
          rw [Nat.testBit_shiftRight]
          have hg := hmin (so / 8 + s) (by omega) (by omega)
          unfold maskBit at hg
          have h1 : (so / 8 + s) / 64 = so / 8 / 64 := by omega
          have h2 : (so / 8 + s) % 64 = so / 8 % 64 + s := by omega
          rw [h1, h2] at hg
          exact hg
      rw [hj, if_neg (by omega), hmB]
      have hnat : so + (k % 64 - so / 8 % 64) * 8 = 8 * k := by omega
      have hcast : ((so : Nat) : Int) + ((k % 64 - so / 8 % 64 : Nat) : Int) * 8
          = ((8 * k : Nat) : Int) := by exact_mod_cast hnat
      have hlt1 : mB + 8 * k < two64 := by omega
      have hnle : ¬ (mB + endOffset ≤ mB + 8 * k) := by omega
      rw [hcast, address_add_nat mB (8 * k) hlt1]
      rw [hend, if_neg hnle]
    · have hwlt : so / 8 / 64 < k / 64 := by omega
      have hj : tz64 ((store.getD b.mask []).getD (so / 8 / 64) 0 >>> (so / 8 % 64)) = 64 := by
        unfold tz64
        apply tz64Go_none
        intro s hs
        rw [Nat.testBit_shiftRight]
        by_cases hbig : so / 8 % 64 + s < 64
        · have hg := hmin (so / 8 + s) (by omega) (by omega)
          unfold maskBit at hg
          have h1 : (so / 8 + s) / 64 = so / 8 / 64 := by omega
          have h2 : (so / 8 + s) % 64 = so / 8 % 64 + s := by omega
          rw [h1, h2] at hg
          exact hg
        · exact testBit_ge_64 _ (getD_lt_two64 _ hw _) _ (by omega)
      rw [hj, if_pos rfl]
      apply ih
      · exact ⟨(so / 8 / 64 + 1) * 64, by ring⟩
      · omega
      · intro t h1 h2
        exact hmin t (by omega) h2
      · omega

theorem nextPtrLoop_none (store : MaskStore) (b : gcMaskBitIterator) (endOffset : Nat)
    (hw : ∀ w ∈ store.getD b.mask [], w < two64) :
    ∀ (fuel so : Nat), 8 ∣ so →
      (∀ t, so / 8 ≤ t → maskBit (store.getD b.mask []) t = false) →
      nextPtrLoop store b endOffset fuel so = none := by
  intro fuel
  induction fuel with
  | zero => intro so _ _; rfl
  | succ f ih =>
    intro so h8 hnb
    by_cases hsoe : so < endOffset
    · simp only [nextPtrLoop, readWord, hsoe, if_true]
      have hj : tz64 ((store.getD b.mask []).getD (so / 8 / 64) 0 >>> (so / 8 % 64)) = 64 := by
        unfold tz64
        apply tz64Go_none
        intro s hs
        rw [Nat.testBit_shiftRight]
        by_cases hbig : so / 8 % 64 + s < 64
        · have hg := hnb (so / 8 + s) (by omega)
          unfold maskBit at hg
          have h1 : (so / 8 + s) / 64 = so / 8 / 64 := by omega
          have h2 : (so / 8 + s) % 64 = so / 8 % 64 + s := by omega
          rw [h1, h2] at hg
          exact hg
        · exact testBit_ge_64 _ (getD_lt_two64 _ hw _) _ (by omega)
      rw [hj, if_pos rfl]
      apply ih
      · exact ⟨(so / 8 / 64 + 1) * 64, by ring⟩
      · intro t ht
        exact hnb t (by omega)
    · simp only [nextPtrLoop, hsoe, if_false]

theorem nextPtr_yield (store : MaskStore) (it : gcMaskBitIterator) (mB eA c k : Nat)
    (ack : Bool)
    (hw : ∀ w ∈ store.getD it.mask [], w < two64)
    (hmB : it.maskBase = mB) (heA : it.endA = eA)
    (hend : mB ≤ eA) (h63 : eA < two63)
    (haddr : it.addr = mB + 8 * c)
    (hck : c ≤ k)
    (hbit : maskBit (store.getD it.mask []) k = true)
    (hmin : ∀ t, c ≤ t → t < k → maskBit (store.getD it.mask []) t = false)
    (hke : mB + 8 * k < eA) :
    nextPtr store (some it) ack
      = (mB + 8 * k, some (if ack then { it with addr := mB + 8 * k + 8 } else it)) := by
  have hpow : two63 < two64 := by norm_num [two63, two64]
  have hpow8 : two63 + 8 < two64 := by norm_num [two63, two64]
  have hsub1 : Address.sub it.addr it.maskBase = ((8 * c : Nat) : Int) := by
    rw [haddr, hmB, address_sub_small (mB + 8 * c) mB (by omega) (by omega)]
    congr 1
    omega
  have hsub2 : Address.sub it.endA it.maskBase = ((eA - mB : Nat) : Int) := by
    rw [heA, hmB]
    exact address_sub_small _ _ hend (by omega)
  have hA1n : eA = mB + (eA - mB) := by omega
  have hA1 : it.endA = mB + (eA - mB) := heA.trans hA1n
  have hA2 : mB + (eA - mB) < two64 := by omega
  have hA3 : 8 * k < eA - mB := by omega
  have hA4 : (8 : Nat) ∣ 8 * c := ⟨c, rfl⟩
  have hA5 : 8 * c / 8 ≤ k := by omega
  have hA6 : ∀ t, 8 * c / 8 ≤ t → t < k → maskBit (store.getD it.mask []) t = false :=
    fun t h1 h2 => hmin t (by omega) h2
  have hA7 : k / 64 < nextPtrFuel (eA - mB) + 8 * c / 512 := by unfold nextPtrFuel; omega
  have hloop := nextPtrLoop_found store it (eA - mB) k mB hw hmB hA1 hA2 hbit hA3
    (nextPtrFuel (eA - mB)) (8 * c) hA4 hA5 hA6 hA7
  have h8c : (8 : Int) = ((8 : Nat) : Int) := by norm_num
  have hlt2 : mB + 8 * k + 8 < two64 := by omega
  have hadd8 : Address.add (mB + 8 * k) 8 = mB + 8 * k + 8 := by
    rw [h8c, address_add_nat (mB + 8 * k) 8 hlt2]
  simp only [nextPtr, hsub1, hsub2, Int.toNat_natCast]
  rw [if_neg (by omega), hloop]
  cases ack <;> simp [hadd8]

theorem nextPtr_exhausted (store : MaskStore) (it : gcMaskBitIterator) (mB eA c : Nat)
    (ack : Bool)
    (hw : ∀ w ∈ store.getD it.mask [], w < two64)
    (hmB : it.maskBase = mB) (heA : it.endA = eA)
    (hend : mB ≤ eA) (h63 : eA + 8 < two63)
    (haddr : it.addr = mB + 8 * c)
    (hc8 : 8 * c ≤ eA - mB + 8)
    (hnb : ∀ t, c ≤ t → maskBit (store.getD it.mask []) t = false) :
    nextPtr store (some it) ack = (0, some it) := by
  have hsub1 : Address.sub it.addr it.maskBase = ((8 * c : Nat) : Int) := by
    rw [haddr, hmB, address_sub_small (mB + 8 * c) mB (by omega) (by omega)]
    congr 1
    omega
  have hsub2 : Address.sub it.endA it.maskBase = ((eA - mB : Nat) : Int) := by
    rw [heA, hmB]
    exact address_sub_small _ _ hend (by omega)
  simp only [nextPtr, hsub1, hsub2, Int.toNat_natCast]
  by_cases hg : eA - mB ≤ 8 * c
  · rw [if_pos (by omega)]
  · rw [if_neg (by omega)]
    rw [nextPtrLoop_none store it (eA - mB) hw _ (8 * c) ⟨c, rfl⟩
      (fun t ht => hnb t (by omega))]

theorem drainNextPtr_spec (store : MaskStore) (O : List Nat) :
    ∀ (c : Nat) (it : gcMaskBitIterator) (mB eA : Nat),
      it.maskBase = mB → it.endA = eA →
      (∀ w ∈ store.getD it.mask [], w < two64) →
      0 < mB → mB ≤ eA → eA + 8 < two63 →
      it.addr = mB + 8 * c →
      8 * c ≤ eA - mB + 8 →
      (∀ k, c ≤ k → (maskBit (store.getD it.mask []) k = true ↔ k ∈ O)) →
      O.Pairwise (· < ·) →
      (∀ o ∈ O, c ≤ o ∧ 8 * o < eA - mB) →
      drainNextPtr store (O.length + 1) (some it) = O.map (fun o => mB + 8 * o) := by
  induction O with
  | nil =>
    intro c it mB eA hmB heA hw hmb hend h63 haddr hc8 hbits _ _
    have hnb : ∀ t, c ≤ t → maskBit (store.getD it.mask []) t = false := by
      intro t ht
      have hx := hbits t ht
      simpa using hx
    simp only [drainNextPtr]
    rw [nextPtr_exhausted store it mB eA c true hw hmB heA hend h63 haddr hc8 hnb]
    simp
  | cons o rest ih =>
    intro c it mB eA hmB heA hw hmb hend h63 haddr hc8 hbits hsort hrange
    have ho := hrange o (by simp)
    have hbit : maskBit (store.getD it.mask []) o = true := (hbits o ho.1).mpr (by simp)
    have hmin : ∀ t, c ≤ t → t < o → maskBit (store.getD it.mask []) t = false := by
      intro t h1 h2
      cases hbt : maskBit (store.getD it.mask []) t
      · rfl
      · exfalso
        have hmem := (hbits t h1).mp hbt
        simp only [List.mem_cons] at hmem
        rcases hmem with rfl | hmem
        · omega
        · have := (List.pairwise_cons.mp hsort).1 t hmem
          omega
    have hyield := nextPtr_yield store it mB eA c o true hw hmB heA hend (by omega) haddr
      ho.1 hbit hmin (by omega)
    have hne : ¬ (mB + 8 * o = 0) := by omega
    simp only [drainNextPtr, List.length_cons, hyield, List.map_cons]
    rw [if_neg hne]
    have hrec := ih (o + 1) { it with addr := mB + 8 * o + 8 } mB eA
      (by simpa using hmB) (by simpa using heA) hw hmb hend h63 (by simp; ring)
      (by omega)
      (by
        intro k hk
        have hx := hbits k (by omega)
        simp only [List.mem_cons] at hx
        rw [hx]
        constructor
        · rintro (rfl | h)
          · omega
          · exact h
        · intro h
          exact Or.inr h)
      ((List.pairwise_cons.mp hsort).2)
      (by
        intro o2 ho2
        have hlt := (List.pairwise_cons.mp hsort).1 o2 ho2
        have hr := hrange o2 (by simp [ho2])
        omega)
    exact congrArg (List.cons (mB + 8 * o)) hrec

/-- Claim C3: for a ptrMask of at least two 64-bit words whose set bits at
or after the window start are exactly the distinct pointer-aligned offsets
O (sorted ascending, all inside the window [base, end)), repeated
nextPtr(true) calls return exactly the addresses maskBase + 8*o for o in O
in ascending order and then 0; and nextPtr(false) returns the same next
set address as nextPtr(true) without advancing the iterator. -/
theorem c3_nextPtr_enumerates_offsets (store : MaskStore) (base endA maskBase : Nat)
    (ref : MaskRef) (O : List Nat) (c0 : Nat)
    (hw : ∀ w ∈ store.getD ref [], w < two64)
    (hlen : 2 ≤ (store.getD ref []).length)
    (hmb : 0 < maskBase)
    (hbase : base = maskBase + 8 * c0)
    (hbe : base ≤ endA)
    (h63 : endA + 8 < two63)
    (hbits1 : ∀ k < 64 * (store.getD ref []).length,
      c0 ≤ k → (maskBit (store.getD ref []) k = true ↔ k ∈ O))
    (hbits2 : ∀ o ∈ O, o < 64 * (store.getD ref []).length)
    (hsort : O.Pairwise (· < ·))
    (hrange : ∀ o ∈ O, c0 ≤ o ∧ 8 * o < endA - maskBase) :
    drainNextPtr store (O.length + 1) (some (newGCBitsIterator base endA maskBase ref))
      = O.map (fun o => maskBase + 8 * o) ∧
    ∀ b : gcMaskBitIterator,
      (nextPtr store (some b) false).2 = some b ∧
      (nextPtr store (some b) false).1 = (nextPtr store (some b) true).1 := by
  constructor
  · have hbitsFull : ∀ k, c0 ≤ k → (maskBit (store.getD ref []) k = true ↔ k ∈ O) := by
      intro k hk
      by_cases hkb : k < 64 * (store.getD ref []).length
      · exact hbits1 k hkb hk
      · constructor
        · intro hbit
          exfalso
          unfold maskBit at hbit
          rw [List.getD_eq_default _ _ (by omega : (store.getD ref []).length ≤ k / 64)] at hbit
          rw [Nat.zero_testBit] at hbit
          exact Bool.noConfusion hbit
        · intro hinO
          exact absurd (hbits2 k hinO) hkb
    exact drainNextPtr_spec store O c0 (newGCBitsIterator base endA maskBase ref)
      maskBase endA rfl rfl hw hmb (by omega) h63 hbase (by omega)
      hbitsFull hsort hrange
  · intro b
    by_cases hg : Address.sub b.endA b.maskBase ≤ Address.sub b.addr b.maskBase ∨
        Address.sub b.addr b.maskBase < 0
    · constructor <;> simp [nextPtr, hg]
    · cases hl : nextPtrLoop store b (Address.sub b.endA b.maskBase).toNat
          (nextPtrFuel (Address.sub b.endA b.maskBase).toNat)
          (Address.sub b.addr b.maskBase).toNat with
      | none => constructor <;> simp [nextPtr, hg, hl]
      | some a => constructor <;> simp [nextPtr, hg, hl]

/-- Witness for C3: a two-word mask with bits at offsets 2, 9 and 116 over
the window [4096, 5120) drains to 4112, 4168, 5024 and then 0, and
nextPtr(false) agrees with nextPtr(true) without moving the cursor. -/
theorem c3_witness :
    drainNextPtr [[2 ^ 2 + 2 ^ 9, 2 ^ 52]] 4 (some (newGCBitsIterator 4096 5120 4096 0))
      = [4112, 4168, 5024] ∧
    (nextPtr [[2 ^ 2 + 2 ^ 9, 2 ^ 52]] (some (newGCBitsIterator 4096 5120 4096 0)) false).2
      = some (newGCBitsIterator 4096 5120 4096 0) ∧
    (nextPtr [[2 ^ 2 + 2 ^ 9, 2 ^ 52]] (some (newGCBitsIterator 4096 5120 4096 0)) false).1
      = (nextPtr [[2 ^ 2 + 2 ^ 9, 2 ^ 52]] (some (newGCBitsIterator 4096 5120 4096 0)) true).1 := by
  have h := c3_nextPtr_enumerates_offsets [[2 ^ 2 + 2 ^ 9, 2 ^ 52]] 4096 5120 4096 0
    [2, 9, 116] 0 (by decide) (by decide) (by decide) (by decide) (by decide)
    (by decide) (by decide) (by decide) (by decide) (by decide)
  exact ⟨h.1.trans (by decide), (h.2 (newGCBitsIterator 4096 5120 4096 0)).1,
    (h.2 (newGCBitsIterator 4096 5120 4096 0)).2⟩

end Goref
